import Mathlib

/-!
Verification of the QA-AI-Agent reconciliation and failure-pattern engine.

This file gives a shallow embedding, in Lean 4, of the string-processing and
reconciliation algorithms of the repository (src/utils.py,
src/parsers/data_builder.py, src/agent/memory.py, src/reporters/category_rules.py,
src/parsers/html_parser.py) and proves or refutes the specified properties.

Python strings are modelled as `List Char`; Python `None`-able values as
`Option`; dictionaries as insertion-ordered association lists. Python string
primitives (`strip`, `split`, `join`, `lower`, `upper`, substring test) are
defined from scratch so that every embedded function is executable and
kernel-decidable on concrete inputs.
-/

set_option maxRecDepth 10000

/-! ## Python string primitives -/

/-- Python `str.strip()` whitespace set (ASCII portion). -/
def pyIsSpace (c : Char) : Bool :=
  c = ' ' || c = '\t' || c = '\n' || c = '\x0d' || c = '\x0b' || c = '\x0c'

/-- Python `str.lstrip()`. -/
def pyLStrip (l : List Char) : List Char := l.dropWhile pyIsSpace

/-- Python `str.rstrip()`. -/
def pyRStrip (l : List Char) : List Char := (l.reverse.dropWhile pyIsSpace).reverse

/-- Python `str.strip()`. -/
def pyStrip (l : List Char) : List Char := pyRStrip (pyLStrip l)

/-- Python `str.lower()` (ASCII). -/
def pyLower (l : List Char) : List Char := l.map Char.toLower

/-- Python `str.upper()` (ASCII). -/
def pyUpper (l : List Char) : List Char := l.map Char.toUpper

/-- Python `sep in s` (single-character membership). -/
def containsChar (c : Char) (l : List Char) : Bool := l.contains c

/-- Python `s.split(sep)` for a single-character separator: splits at every
occurrence, keeping empty fields; `"".split(".") == [""]`. -/
def pySplitChar (sep : Char) : List Char → List (List Char)
  | [] => [[]]
  | c :: rest =>
    match pySplitChar sep rest with
    | [] => [[c]]
    | p :: ps => if c = sep then [] :: p :: ps else (c :: p) :: ps

/-- Python `sep.join(parts)` for a single-character separator. -/
def pyJoin (sep : Char) (parts : List (List Char)) : List Char :=
  match parts with
  | [] => []
  | [p] => p
  | p :: ps => p ++ sep :: pyJoin sep ps

/-- Python `needle in haystack` (substring containment). -/
def startsWithL (needle haystack : List Char) : Bool :=
  match needle, haystack with
  | [], _ => true
  | _ :: _, [] => false
  | n :: ns, h :: hs => n = h && startsWithL ns hs

/-- Substring containment, Python `needle in haystack`. -/
def containsSub (needle haystack : List Char) : Bool :=
  match haystack with
  | [] => startsWithL needle []
  | _ :: hs => startsWithL needle haystack || containsSub needle hs

/-- Position of the first occurrence of a literal substring, if any
(Python `str.find` / `re.search` on an escaped literal). -/
def findSub (needle haystack : List Char) : Option Nat :=
  match haystack with
  | [] => if startsWithL needle [] then some 0 else none
  | _ :: hs =>
    if startsWithL needle haystack then some 0
    else (findSub needle hs).map (· + 1)

/-- Python truthiness of an optional string (`None` and `""` are falsy). -/
def optTruthy (s : Option (List Char)) : Bool :=
  match s with
  | none => false
  | some l => !l.isEmpty

/-- Python slice `l[a:b]` (clamping, `a ≤ b` not required). -/
def pySlice (l : List Char) (a b : Nat) : List Char := (l.take b).drop a

/-! ## Identity Normalizer (src/utils.py)

`remove_duplicate_class_name` splits on `.`, then walks the parts left to
right appending each one and, when the next part equals the current one,
skips over the pair (one collapse per position). -/

/-- The `while i < len(parts)` loop of `remove_duplicate_class_name`
(src/utils.py lines 221-229). -/
def collapseParts : List (List Char) → List (List Char)
  | [] => []
  | [a] => [a]
  | a :: b :: rest =>
    if a = b then a :: collapseParts rest else a :: collapseParts (b :: rest)

/-- `remove_duplicate_class_name` (src/utils.py lines 195-230). -/
def remove_duplicate_class_name (class_name : List Char) : List Char :=
  if class_name.isEmpty || !containsChar '.' class_name then class_name
  else
    let parts := pySplitChar '.' class_name
    if parts.length < 2 then class_name
    else pyJoin '.' (collapseParts parts)

/-- `TestNameNormalizer.normalize` (src/utils.py lines 17-31). -/
def tn_normalize (name : List Char) : List Char :=
  if name.isEmpty then []
  else pyStrip (remove_duplicate_class_name name)

/-- `TestNameNormalizer.match` (src/utils.py lines 33-45). -/
def tn_match (name1 name2 : List Char) : Bool :=
  tn_normalize name1 = tn_normalize name2

/-- Sanity: the documented collapse examples hold. -/
example : tn_normalize "A.B.C.C".toList = "A.B.C".toList := by decide

example : tn_normalize "Pkg.Foo.Foo.testBar".toList = "Pkg.Foo.testBar".toList := by
  decide

example : tn_normalize "X.X".toList = "X".toList := by decide


/-! ### Normalization: auxiliary predicates and lemmas -/

/-- No two adjacent elements are equal. -/
def noAdjDup : List (List Char) → Bool
  | [] => true
  | [_] => true
  | a :: b :: rest => (a ≠ b : Bool) && noAdjDup (b :: rest)

/-- No three consecutive elements are all equal. -/
def noThreeRun : List (List Char) → Bool
  | a :: b :: c :: rest => !(a = b && b = c) && noThreeRun (b :: c :: rest)
  | _ => true

theorem noThreeRun_tail {a : List Char} {l : List (List Char)}
    (h : noThreeRun (a :: l) = true) : noThreeRun l = true := by
  cases l with
  | nil => rfl
  | cons b t =>
    cases t with
    | nil => rfl
    | cons c t' =>
      simp only [noThreeRun, Bool.and_eq_true] at h ⊢
      exact h.2

theorem noThreeRun_head {a b c : List Char} {l : List (List Char)}
    (h : noThreeRun (a :: b :: c :: l) = true) : ¬(a = b ∧ b = c) := by
  simp only [noThreeRun, Bool.and_eq_true, Bool.not_eq_true',
    Bool.and_eq_false_iff, decide_eq_false_iff_not] at h
  intro ⟨h1, h2⟩
  rcases h.1 with h3 | h3 <;> exact h3 (by assumption)

theorem collapseParts_eq_self {l : List (List Char)} (h : noAdjDup l = true) :
    collapseParts l = l := by
  match l with
  | [] => rfl
  | [a] => rfl
  | a :: b :: rest =>
    simp only [noAdjDup, Bool.and_eq_true, decide_eq_true_eq] at h
    have h1 : ¬ a = b := by simpa using h.1
    simp only [collapseParts, if_neg h1]
    rw [collapseParts_eq_self h.2]

theorem head?_collapseParts (l : List (List Char)) :
    (collapseParts l).head? = l.head? := by
  match l with
  | [] => rfl
  | [a] => rfl
  | a :: b :: rest =>
    simp only [collapseParts]
    split <;> rfl

theorem collapseParts_ne_nil {l : List (List Char)} (h : l ≠ []) :
    collapseParts l ≠ [] := by
  match l with
  | [a] => simp [collapseParts]
  | a :: b :: rest =>
    simp only [collapseParts]
    split <;> simp

theorem getLast?_collapseParts (l : List (List Char)) :
    (collapseParts l).getLast? = l.getLast? := by
  match l with
  | [] => rfl
  | [a] => rfl
  | a :: b :: rest =>
    simp only [collapseParts]
    split
    · rename_i hab
      cases rest with
      | nil => subst hab; rfl
      | cons c t =>
        rw [List.getLast?_cons_cons, List.getLast?_cons_cons,
          ← getLast?_collapseParts (c :: t)]
        cases hcl : collapseParts (c :: t) with
        | nil => exact absurd hcl (collapseParts_ne_nil (by simp))
        | cons x xs => rw [List.getLast?_cons_cons]
    · rw [List.getLast?_cons_cons, ← getLast?_collapseParts (b :: rest)]
      cases hcl : collapseParts (b :: rest) with
      | nil => exact absurd hcl (collapseParts_ne_nil (by simp))
      | cons x xs => rw [List.getLast?_cons_cons]

theorem mem_collapseParts {p : List Char} {l : List (List Char)}
    (h : p ∈ collapseParts l) : p ∈ l := by
  match l with
  | [] => simp [collapseParts] at h
  | [a] => simpa [collapseParts] using h
  | a :: b :: rest =>
    simp only [collapseParts] at h
    split at h
    · rcases List.mem_cons.mp h with h1 | h2
      · simp [h1]
      · have := mem_collapseParts h2
        simp only [List.mem_cons] at this ⊢
        tauto
    · rcases List.mem_cons.mp h with h1 | h2
      · simp [h1]
      · have := mem_collapseParts h2
        simp only [List.mem_cons] at this ⊢
        tauto

theorem noAdjDup_collapseParts {l : List (List Char)} (h : noThreeRun l = true) :
    noAdjDup (collapseParts l) = true := by
  match l with
  | [] => rfl
  | [a] => rfl
  | a :: b :: rest =>
    simp only [collapseParts]
    split
    · rename_i hab
      subst hab
      cases rest with
      | nil => rfl
      | cons c t =>
        have hac : ¬ a = c := fun he => noThreeRun_head h ⟨rfl, he⟩
        have ih := noAdjDup_collapseParts (noThreeRun_tail (noThreeRun_tail h))
        cases hcl : collapseParts (c :: t) with
        | nil => rfl
        | cons x xs =>
          have hx : x = c := by
            have hh := head?_collapseParts (c :: t)
            rw [hcl] at hh
            simpa using hh
          subst hx
          rw [hcl] at ih
          simp only [noAdjDup, Bool.and_eq_true, decide_eq_true_eq]
          refine ⟨by simpa using hac, ih⟩
    · rename_i hab
      have ih := noAdjDup_collapseParts (noThreeRun_tail h)
      cases hcl : collapseParts (b :: rest) with
      | nil => rfl
      | cons x xs =>
        have hx : x = b := by
          have hh := head?_collapseParts (b :: rest)
          rw [hcl] at hh
          simpa using hh
        subst hx
        rw [hcl] at ih
        simp only [noAdjDup, Bool.and_eq_true, decide_eq_true_eq]
        refine ⟨by simpa using hab, ih⟩

/-! ### split/join lemmas -/

theorem pySplitChar_ne_nil (sep : Char) (l : List Char) : pySplitChar sep l ≠ [] := by
  cases l with
  | nil => simp [pySplitChar]
  | cons c rest =>
    cases h : pySplitChar sep rest with
    | nil => simp [pySplitChar, h]
    | cons p ps =>
      simp only [pySplitChar, h]
      split <;> simp

theorem pyJoin_pySplitChar (sep : Char) (l : List Char) :
    pyJoin sep (pySplitChar sep l) = l := by
  match l with
  | [] => rfl
  | c :: rest =>
    have ih := pyJoin_pySplitChar sep rest
    cases h : pySplitChar sep rest with
    | nil => exact absurd h (pySplitChar_ne_nil sep rest)
    | cons p ps =>
      rw [h] at ih
      simp only [pySplitChar, h]
      split
      · rename_i hc
        subst hc
        simp only [pyJoin]
        rw [ih]
        rfl
      · cases ps with
        | nil =>
          simp only [pyJoin] at ih ⊢
          rw [ih]
        | cons q qs =>
          simp only [pyJoin] at ih ⊢
          rw [List.cons_append, ih]

theorem pySplitChar_of_not_contains {sep : Char} {p : List Char}
    (h : ¬ sep ∈ p) : pySplitChar sep p = [p] := by
  match p with
  | [] => rfl
  | c :: rest =>
    have hc : ¬ c = sep := fun hc => h (by simp [hc])
    have ih := pySplitChar_of_not_contains (p := rest)
      (fun hm => h (List.mem_cons_of_mem c hm))
    simp only [pySplitChar, ih, if_neg hc]

theorem pySplitChar_append_sep {sep : Char} {p t : List Char} (h : ¬ sep ∈ p) :
    pySplitChar sep (p ++ sep :: t) = p :: pySplitChar sep t := by
  match p with
  | [] =>
    simp only [List.nil_append]
    cases ht : pySplitChar sep t with
    | nil => exact absurd ht (pySplitChar_ne_nil sep t)
    | cons q qs => simp [pySplitChar, ht]
  | c :: rest =>
    have hc : ¬ c = sep := fun hc => h (by simp [hc])
    have ih := pySplitChar_append_sep (p := rest) (t := t)
      (fun hm => h (List.mem_cons_of_mem c hm))
    simp only [List.cons_append, pySplitChar, List.append_eq, ih, if_neg hc]

theorem pySplitChar_pyJoin {sep : Char} {parts : List (List Char)}
    (hne : parts ≠ []) (hfree : ∀ p ∈ parts, ¬ sep ∈ p) :
    pySplitChar sep (pyJoin sep parts) = parts := by
  match parts with
  | [p] =>
    simp only [pyJoin]
    exact pySplitChar_of_not_contains (hfree p (by simp))
  | p :: q :: ps =>
    have ih := @pySplitChar_pyJoin _ (q :: ps) (by simp)
      (fun r hr => hfree r (List.mem_cons_of_mem p hr))
    simp only [pyJoin] at ih ⊢
    rw [pySplitChar_append_sep (hfree p (by simp)), ih]

theorem mem_pySplitChar_sep_free {sep : Char} {p : List Char} {l : List Char}
    (h : p ∈ pySplitChar sep l) : ¬ sep ∈ p := by
  match l with
  | [] =>
    simp only [pySplitChar, List.mem_singleton] at h
    subst h; simp
  | c :: rest =>
    cases hs : pySplitChar sep rest with
    | nil => exact absurd hs (pySplitChar_ne_nil sep rest)
    | cons q qs =>
      have ihq : ∀ r ∈ q :: qs, ¬ sep ∈ r := by
        intro r hr
        exact mem_pySplitChar_sep_free (l := rest) (by rw [hs]; exact hr)
      simp only [pySplitChar, hs] at h
      split at h
      · rename_i hc
        rcases List.mem_cons.mp h with h1 | h2
        · subst h1; simp
        · exact ihq p h2
      · rename_i hc
        rcases List.mem_cons.mp h with h1 | h2
        · subst h1
          intro hm
          rcases List.mem_cons.mp hm with h3 | h4
          · exact hc h3.symm
          · exact ihq q (by simp) h4
        · exact ihq p (List.mem_cons_of_mem q h2)

theorem pySplitChar_length_ge_two {sep : Char} {l : List Char}
    (h : sep ∈ l) : 2 ≤ (pySplitChar sep l).length := by
  match l with
  | c :: rest =>
    cases hs : pySplitChar sep rest with
    | nil => exact absurd hs (pySplitChar_ne_nil sep rest)
    | cons q qs =>
      rcases List.mem_cons.mp h with h1 | h2
      · simp [pySplitChar, hs, if_pos h1.symm]
      · have h2l := pySplitChar_length_ge_two (l := rest) h2
        rw [hs] at h2l
        simp only [List.length_cons] at h2l
        simp only [pySplitChar, hs]
        split <;> simp; omega

/-! ### strip lemmas -/

theorem length_dropWhile_le (p : Char → Bool) (l : List Char) :
    (l.dropWhile p).length ≤ l.length := by
  induction l with
  | nil => simp
  | cons c rest ih =>
    by_cases hc : p c
    · rw [List.dropWhile_cons_of_pos hc]
      simp only [List.length_cons]
      omega
    · rw [List.dropWhile_cons_of_neg hc]

theorem dropWhile_eq_self_of_length_eq {p : Char → Bool} {l : List Char}
    (h : (l.dropWhile p).length = l.length) : l.dropWhile p = l := by
  cases l with
  | nil => rfl
  | cons c rest =>
    by_cases hc : p c
    · rw [List.dropWhile_cons_of_pos hc] at h
      have := length_dropWhile_le p rest
      simp only [List.length_cons] at h
      omega
    · exact List.dropWhile_cons_of_neg hc

theorem pyLStrip_length_le (l : List Char) : (pyLStrip l).length ≤ l.length :=
  length_dropWhile_le pyIsSpace l

theorem pyRStrip_length_le (l : List Char) : (pyRStrip l).length ≤ l.length := by
  unfold pyRStrip
  calc (l.reverse.dropWhile pyIsSpace).reverse.length
      = (l.reverse.dropWhile pyIsSpace).length := by rw [List.length_reverse]
    _ ≤ l.reverse.length := length_dropWhile_le pyIsSpace l.reverse
    _ = l.length := List.length_reverse l

theorem of_pyStrip_eq_self {l : List Char} (h : pyStrip l = l) :
    pyLStrip l = l ∧ pyRStrip l = l := by
  have hlen : l.length ≤ (pyLStrip l).length := by
    calc l.length = (pyStrip l).length := by rw [h]
      _ ≤ (pyLStrip l).length := pyRStrip_length_le (pyLStrip l)
  have h1 : pyLStrip l = l :=
    dropWhile_eq_self_of_length_eq (Nat.le_antisymm (pyLStrip_length_le l) hlen)
  refine ⟨h1, ?_⟩
  unfold pyStrip at h
  rwa [h1] at h

theorem head_not_space_of_lstrip_eq {l : List Char} (h : pyLStrip l = l) :
    ∀ c, l.head? = some c → pyIsSpace c = false := by
  intro c hc
  cases l with
  | nil => simp at hc
  | cons d rest =>
    have hd : d = c := by simpa using hc
    subst hd
    cases hx : pyIsSpace d
    · rfl
    · exfalso
      unfold pyLStrip at h
      rw [List.dropWhile_cons_of_pos hx] at h
      have h1 := length_dropWhile_le pyIsSpace rest
      have h2 := congrArg List.length h
      simp only [List.length_cons] at h2
      omega

theorem getLast_not_space_of_rstrip_eq {l : List Char} (h : pyRStrip l = l) :
    ∀ c, l.getLast? = some c → pyIsSpace c = false := by
  intro c hc
  have hrev : l.reverse.dropWhile pyIsSpace = l.reverse := by
    have h2 := congrArg List.reverse h
    unfold pyRStrip at h2
    simpa using h2
  apply head_not_space_of_lstrip_eq (l := l.reverse) hrev
  rw [List.head?_reverse]
  exact hc

theorem pyStrip_eq_self_of_ends {l : List Char}
    (h1 : ∀ c, l.head? = some c → pyIsSpace c = false)
    (h2 : ∀ c, l.getLast? = some c → pyIsSpace c = false) :
    pyStrip l = l := by
  cases l with
  | nil => rfl
  | cons d rest =>
    have hls : pyLStrip (d :: rest) = d :: rest := by
      unfold pyLStrip
      exact List.dropWhile_cons_of_neg (by simp [h1 d rfl])
    have hgl : ∃ e, (d :: rest).getLast? = some e := by
      cases hg : (d :: rest).getLast? with
      | none => simp [List.getLast?_eq_none_iff] at hg
      | some e => exact ⟨e, rfl⟩
    obtain ⟨e, he⟩ := hgl
    have hrs : pyRStrip (d :: rest) = d :: rest := by
      unfold pyRStrip
      have hrev : (d :: rest).reverse.head? = some e := by
        rw [List.head?_reverse]; exact he
      cases hr : (d :: rest).reverse with
      | nil => simp at hr
      | cons x xs =>
        have hx : x = e := by rw [hr] at hrev; simpa using hrev
        rw [List.dropWhile_cons_of_neg (by rw [hx]; simp [h2 e he])]
        rw [← hr, List.reverse_reverse]
    unfold pyStrip
    rw [hls, hrs]

/-! ### join boundary lemmas -/

theorem head?_pyJoin_cons (sep : Char) (p : List Char) (ps : List (List Char)) :
    (pyJoin sep (p :: ps)).head? =
      match p with
      | [] => if ps.isEmpty then none else some sep
      | c :: _ => some c := by
  cases ps with
  | nil => cases p <;> rfl
  | cons q qs => cases p <;> rfl

theorem getLast?_pyJoin {sep : Char} {parts : List (List Char)} {q : List Char}
    (h : parts.getLast? = some q) :
    (pyJoin sep parts).getLast? =
      if q.isEmpty then (if parts.length = 1 then none else some sep)
      else q.getLast? := by
  match parts with
  | [] => simp at h
  | [p] =>
    have hq : q = p := by simpa using h.symm
    subst hq
    cases q <;> simp [pyJoin]
  | p :: r :: rs =>
    have h' : (r :: rs).getLast? = some q := by
      rw [List.getLast?_cons_cons] at h
      exact h
    have ih := @getLast?_pyJoin sep _ _ h'
    have hjoin : pyJoin sep (p :: r :: rs) = p ++ sep :: pyJoin sep (r :: rs) := rfl
    rw [hjoin, List.getLast?_append_of_ne_nil _ (by simp)]
    cases hpj : pyJoin sep (r :: rs) with
    | nil =>
      -- pyJoin (r :: rs) = [] forces rs = [] and r = []
      cases rs with
      | nil =>
        have hr : r = [] := by simpa [pyJoin] using hpj
        subst hr
        have hq : q = [] := by simpa using h'.symm
        subst hq
        simp
      | cons s ss => simp [pyJoin] at hpj
    | cons x xs =>
      have hcc : (sep :: x :: xs).getLast? = (x :: xs).getLast? := List.getLast?_cons_cons
      rw [hcc, ← hpj, ih]
      by_cases hq : q.isEmpty
      · simp only [hq, if_true]
        by_cases hl : (r :: rs).length = 1
        · -- length 1: rs = [], r = q = [], so pyJoin (r :: rs) = [], contradiction
          exfalso
          cases rs with
          | nil =>
            have hr : q = r := by simpa using h'.symm
            have hqe : q = [] := by
              cases q
              · rfl
              · simp at hq
            subst hqe
            rw [← hr] at hpj
            simp [pyJoin] at hpj
          | cons s ss => simp at hl
        · rw [if_neg hl, if_neg (by simp)]
      · simp [hq]

theorem pySplitChar_head {sep : Char} {n p : List Char} {ps : List (List Char)}
    (h : pySplitChar sep n = p :: ps) : p = [] ∨ p.head? = n.head? := by
  cases n with
  | nil =>
    simp only [pySplitChar] at h
    refine Or.inl ?_
    have := congrArg List.head? h
    simpa using this.symm
  | cons c rest =>
    cases hs : pySplitChar sep rest with
    | nil => exact absurd hs (pySplitChar_ne_nil sep rest)
    | cons r rs =>
      simp only [pySplitChar, hs] at h
      split at h
      · refine Or.inl ?_
        have := congrArg List.head? h
        simpa using this.symm
      · refine Or.inr ?_
        have hp : p = c :: r := by
          have := congrArg List.head? h
          simpa using this.symm
        subst hp
        rfl

theorem pySplitChar_getLast? {sep : Char} {n q : List Char}
    (h : (pySplitChar sep n).getLast? = some q) : q = [] ∨ q.getLast? = n.getLast? := by
  match n with
  | [] =>
    simp only [pySplitChar] at h
    exact Or.inl (by simpa using h.symm)
  | c :: rest =>
    cases hs : pySplitChar sep rest with
    | nil => exact absurd hs (pySplitChar_ne_nil sep rest)
    | cons r rs =>
      have hrec : (pySplitChar sep rest).getLast? = some q →
          q = [] ∨ q.getLast? = rest.getLast? :=
        fun hh => pySplitChar_getLast? hh
      by_cases hc : c = sep
      · have hform : pySplitChar sep (c :: rest) = [] :: r :: rs := by
          simp only [pySplitChar, hs, if_pos hc]
        rw [hform, List.getLast?_cons_cons] at h
        have hq := hrec (by rw [hs]; exact h)
        rcases hq with hq | hq
        · exact Or.inl hq
        · cases rest with
          | nil =>
            simp only [pySplitChar] at hs
            injection hs with hr1 hr2
            subst hr1
            subst hr2
            exact Or.inl (by simpa using h.symm)
          | cons d t =>
            exact Or.inr (by rw [hq]; rfl)
      · have hform : pySplitChar sep (c :: rest) = (c :: r) :: rs := by
          simp only [pySplitChar, hs, if_neg hc]
        rw [hform] at h
        cases rs with
        | nil =>
          have hq : q = c :: r := by simpa using h.symm
          subst hq
          have hrest : rest = r := by
            have hj := pyJoin_pySplitChar sep rest
            rw [hs] at hj
            simpa [pyJoin] using hj.symm
          subst hrest
          exact Or.inr rfl
        | cons s ss =>
          rw [List.getLast?_cons_cons] at h
          have hq := hrec (by rw [hs, List.getLast?_cons_cons]; exact h)
          rcases hq with hq | hq
          · exact Or.inl hq
          · cases rest with
            | nil => simp [pySplitChar] at hs
            | cons d t => exact Or.inr (by rw [hq]; rfl)

/-! ### Idempotence of normalization (claim C2) -/

theorem containsChar_iff {c : Char} {l : List Char} :
    containsChar c l = true ↔ c ∈ l := by
  simp [containsChar]

/-- The collapsed-and-rejoined name has no surrounding whitespace whenever the
input had none; hence the final `.strip()` in `normalize` is the identity on it. -/
theorem pyStrip_join_collapse {n : List Char} (hne : n ≠ []) (hstrip : pyStrip n = n) :
    pyStrip (pyJoin '.' (collapseParts (pySplitChar '.' n))) =
      pyJoin '.' (collapseParts (pySplitChar '.' n)) := by
  have hLne : collapseParts (pySplitChar '.' n) ≠ [] :=
    collapseParts_ne_nil (pySplitChar_ne_nil '.' n)
  obtain ⟨p, ps, hL⟩ := List.exists_cons_of_ne_nil hLne
  have hhead : (pySplitChar '.' n).head? = some p := by
    rw [← head?_collapseParts, hL]; rfl
  obtain ⟨p', ps', hsplit⟩ := List.exists_cons_of_ne_nil (pySplitChar_ne_nil '.' n)
  have hpp : p' = p := by rw [hsplit] at hhead; simpa using hhead
  subst hpp
  apply pyStrip_eq_self_of_ends
  · -- leading character
    intro c hc
    rw [hL, head?_pyJoin_cons] at hc
    rcases pySplitChar_head hsplit with hpe | hph
    · subst hpe
      simp only at hc
      split at hc
      · simp at hc
      · have : c = '.' := by simpa using hc.symm
        subst this
        decide
    · cases p' with
      | nil =>
        simp only at hc
        split at hc
        · simp at hc
        · have : c = '.' := by simpa using hc.symm
          subst this
          decide
      | cons d ds =>
        simp only at hc
        have hdc : d = c := by simpa using hc
        subst hdc
        exact head_not_space_of_lstrip_eq (of_pyStrip_eq_self hstrip).1 d (by rw [← hph]; rfl)
  · -- trailing character
    intro c hc
    have hq : ∃ q, (collapseParts (pySplitChar '.' n)).getLast? = some q := by
      cases hg : (collapseParts (pySplitChar '.' n)).getLast? with
      | none =>
        rw [List.getLast?_eq_none_iff] at hg
        exact absurd hg hLne
      | some q => exact ⟨q, rfl⟩
    obtain ⟨q, hq⟩ := hq
    rw [getLast?_pyJoin hq] at hc
    have hqsplit : (pySplitChar '.' n).getLast? = some q := by
      rw [← getLast?_collapseParts]; exact hq
    by_cases hqe : q.isEmpty
    · rw [if_pos hqe] at hc
      split at hc
      · simp at hc
      · have : c = '.' := by simpa using hc.symm
        subst this
        decide
    · rw [if_neg hqe] at hc
      rcases pySplitChar_getLast? hqsplit with hq0 | hql
      · subst hq0; simp at hqe
      · rw [hql] at hc
        exact getLast_not_space_of_rstrip_eq (of_pyStrip_eq_self hstrip).2 c hc

/-- C2 (counterexample). The spec claims `normalize` is idempotent for every
name. It is not: `"A.A.A"` normalizes to `"A.A"`, which normalizes further to
`"A"`, because the collapse loop removes only one adjacent repeat per position. -/
theorem C2_counterexample :
    tn_normalize (tn_normalize "A.A.A".toList) ≠ tn_normalize "A.A.A".toList := by
  decide

/-- C2 (amended). `normalize(normalize(n)) == normalize(n)` holds for every
name `n` that carries no leading/trailing whitespace and whose dot-separated
segment list contains no run of three or more consecutive equal segments.
(The counterexamples `"A.A.A"` and `"A.A "` force exactly these two provisos.) -/
theorem C2_normalize_idempotent (n : List Char)
    (h1 : pyStrip n = n) (h2 : noThreeRun (pySplitChar '.' n) = true) :
    tn_normalize (tn_normalize n) = tn_normalize n := by
  by_cases hne : n.isEmpty
  · have hn : n = [] := by
      cases n
      · rfl
      · simp at hne
    subst hn
    rfl
  · have hne' : n ≠ [] := by
      cases n
      · simp at hne
      · simp
    by_cases hdot : containsChar '.' n
    · -- the interesting branch: the collapse actually runs
      have hlen : ¬ (pySplitChar '.' n).length < 2 := by
        have := pySplitChar_length_ge_two (containsChar_iff.mp hdot)
        omega
      have hrdcn : remove_duplicate_class_name n =
          pyJoin '.' (collapseParts (pySplitChar '.' n)) := by
        unfold remove_duplicate_class_name
        rw [if_neg (by simp [hne, hdot]), if_neg hlen]
      have hnorm : tn_normalize n = pyJoin '.' (collapseParts (pySplitChar '.' n)) := by
        unfold tn_normalize
        rw [if_neg (by simp [hne]), hrdcn]
        exact pyStrip_join_collapse hne' h1
      rw [hnorm]
      -- now show the second pass is the identity on the collapsed join
      have hLfree : ∀ p ∈ collapseParts (pySplitChar '.' n), ¬ '.' ∈ p :=
        fun p hp => mem_pySplitChar_sep_free (mem_collapseParts hp)
      have hLne : collapseParts (pySplitChar '.' n) ≠ [] :=
        collapseParts_ne_nil (pySplitChar_ne_nil '.' n)
      have hsplitm : pySplitChar '.' (pyJoin '.' (collapseParts (pySplitChar '.' n))) =
          collapseParts (pySplitChar '.' n) :=
        pySplitChar_pyJoin hLne hLfree
      have hms : pyStrip (pyJoin '.' (collapseParts (pySplitChar '.' n))) =
          pyJoin '.' (collapseParts (pySplitChar '.' n)) :=
        pyStrip_join_collapse hne' h1
      by_cases hme : (pyJoin '.' (collapseParts (pySplitChar '.' n))).isEmpty
      · have hm0 : pyJoin '.' (collapseParts (pySplitChar '.' n)) = [] := by
          cases hax : pyJoin '.' (collapseParts (pySplitChar '.' n))
          · rfl
          · rw [hax] at hme; simp at hme
        rw [hm0]
        rfl
      · unfold tn_normalize
        rw [if_neg (by simp [hme])]
        by_cases hmd : containsChar '.' (pyJoin '.' (collapseParts (pySplitChar '.' n)))
        · have hlen2 : ¬ (pySplitChar '.'
              (pyJoin '.' (collapseParts (pySplitChar '.' n)))).length < 2 := by
            have := pySplitChar_length_ge_two (containsChar_iff.mp hmd)
            omega
          unfold remove_duplicate_class_name
          rw [if_neg (by simp [hme, hmd]), if_neg hlen2, hsplitm,
            collapseParts_eq_self (noAdjDup_collapseParts h2)]
          exact hms
        · unfold remove_duplicate_class_name
          rw [if_pos (by simp [hmd])]
          exact hms
    · -- no dot: the collapse is the identity and strip fixes n
      have hnorm : tn_normalize n = n := by
        unfold tn_normalize remove_duplicate_class_name
        rw [if_neg (by simp [hne]), if_pos (by simp [hdot])]
        exact h1
      rw [hnorm]
      exact hnorm

/-- C2 (witness): the amended theorem applies to a realistic concrete name. -/
theorem C2_witness :
    pyStrip "Pkg.Foo.Foo.testBar".toList = "Pkg.Foo.Foo.testBar".toList ∧
    noThreeRun (pySplitChar '.' "Pkg.Foo.Foo.testBar".toList) = true ∧
    tn_normalize (tn_normalize "Pkg.Foo.Foo.testBar".toList) =
      tn_normalize "Pkg.Foo.Foo.testBar".toList :=
  ⟨by decide, by decide, C2_normalize_idempotent _ (by decide) (by decide)⟩

/-! ## Record Reconciler (src/parsers/data_builder.py)

Database rows are reconciled into one record per raw `testcaseName`.
`TestResult` is embedded with the fields the reconciliation logic reads
(status, execution log, duration, identity); the purely diagnostic fields
derived from `failureReason` (error_type/error_message/stack_trace) and the
description are not consulted by any dedup decision and are omitted. -/

/-- `TestStatus` (src/parsers/models.py lines 11-16). -/
inductive TestStatus where
  | PASS
  | FAIL
  | SKIP
  | ERROR
deriving DecidableEq, Repr

/-- A database row (src/parsers/data_builder.py: `db_row` mapping). -/
structure DbRow where
  testcaseName : List Char
  testStatus : List Char
deriving DecidableEq, Repr

/-- Embedded `TestResult` (src/parsers/models.py lines 19-46, reconciliation
fields). -/
structure TestResultM where
  class_name : List Char
  method_name : List Char
  status : TestStatus
  duration_seconds : ℚ
  platform : Option (List Char)
  execution_log : Option (List Char)
deriving DecidableEq, Repr

/-- Status parsing of `db_row_to_test_result`
(src/parsers/data_builder.py lines 79-91): free-text synonyms collapse to the
enum, unknown tokens default to PASS. -/
def parse_test_status (raw : List Char) : TestStatus :=
  let status_str := pyStrip (pyUpper raw)
  if status_str ∈ ["PASS".toList, "PASSED".toList, "SUCCESS".toList, "OK".toList] then
    TestStatus.PASS
  else if status_str ∈ ["FAIL".toList, "FAILED".toList, "FAILURE".toList] then
    TestStatus.FAIL
  else if status_str ∈ ["ERROR".toList, "ERRORED".toList] then
    TestStatus.ERROR
  else if status_str ∈ ["SKIP".toList, "SKIPPED".toList] then
    TestStatus.SKIP
  else
    TestStatus.PASS

/-- Class/method split of `db_row_to_test_result`
(src/parsers/data_builder.py lines 69-76). -/
def db_split_class_method (testcase_name : List Char) : List Char × List Char :=
  let parts := pySplitChar '.' testcase_name
  if 2 ≤ parts.length then
    (pyJoin '.' parts.dropLast, parts.getLastD [])
  else
    ([], testcase_name)

/-- Platform heuristic of `db_row_to_test_result`
(src/parsers/data_builder.py lines 126-133). -/
def db_extract_platform (class_name : List Char) : Option (List Char) :=
  let cl := pyLower class_name
  if containsSub "api".toList cl || containsSub ".api.".toList cl then
    some "API".toList
  else if containsSub "web".toList cl || containsSub ".web.".toList cl then
    some "WEB".toList
  else if containsSub "mobile".toList cl || containsSub ".mobile.".toList cl then
    some "MOBILE".toList
  else none

/-- `db_row_to_test_result` (src/parsers/data_builder.py lines 51-149);
`none` is the raised `ValueError` for a missing name. -/
def db_row_to_test_result (row : DbRow) (execution_log : Option (List Char))
    (duration : Option ℚ) : Option TestResultM :=
  if row.testcaseName.isEmpty then none
  else
    let cm := db_split_class_method row.testcaseName
    some {
      class_name := cm.1
      method_name := cm.2
      status := parse_test_status row.testStatus
      duration_seconds := duration.getD 0
      platform := db_extract_platform cm.1
      execution_log := execution_log
    }

/-- First binding of a key in an insertion-ordered association list
(Python `dict` lookup). -/
def assocLookup {V : Type} (k : List Char) : List (List Char × V) → Option V
  | [] => none
  | (k', v) :: rest => if k' = k then some v else assocLookup k rest

/-- Replace the value at an existing key, keeping its position
(Python `dict` assignment on a present key). -/
def assocUpdate {V : Type} (k : List Char) (v : V) :
    List (List Char × V) → List (List Char × V)
  | [] => []
  | (k', v') :: rest =>
    if k' = k then (k', v) :: rest else (k', v') :: assocUpdate k v rest

/-- `_find_matching_execution_log` (src/parsers/data_builder.py lines 291-331):
exact key, `class.method` suffix, duplicate-cleaned class, then
case-insensitive method-name-only scan over insertion order. -/
def find_matching_execution_log (testcase_name : List Char)
    (execution_logs : List (List Char × List Char)) : Option (List Char) :=
  if execution_logs.isEmpty then none
  else
    match assocLookup testcase_name execution_logs with
    | some log => some log
    | none =>
      let parts := pySplitChar '.' testcase_name
      if 2 ≤ parts.length then
        let class_method := pyJoin '.' (parts.drop (parts.length - 2))
        match assocLookup class_method execution_logs with
        | some log => some log
        | none =>
          let class_name := parts.getD (parts.length - 2) []
          let method_name := parts.getLastD []
          let cleaned_class := remove_duplicate_class_name class_name
          let cleaned_class_method := cleaned_class ++ '.' :: method_name
          match assocLookup cleaned_class_method execution_logs with
          | some log => some log
          | none =>
            let method_lower := pyLower method_name
            match execution_logs.find?
                (fun kv => (pySplitChar '.' kv.1).getLastD [] |> pyLower
                  |> (· = method_lower)) with
            | some kv => some kv.2
            | none => none
      else none

/-- `_find_matching_duration` (src/parsers/data_builder.py lines 334-371):
same strategies over the durations mapping. -/
def find_matching_duration (testcase_name : List Char)
    (durations : List (List Char × ℚ)) : Option ℚ :=
  if durations.isEmpty then none
  else
    match assocLookup testcase_name durations with
    | some d => some d
    | none =>
      let parts := pySplitChar '.' testcase_name
      if 2 ≤ parts.length then
        let class_method := pyJoin '.' (parts.drop (parts.length - 2))
        match assocLookup class_method durations with
        | some d => some d
        | none =>
          let class_name := parts.getD (parts.length - 2) []
          let method_name := parts.getLastD []
          let cleaned_class := remove_duplicate_class_name class_name
          let cleaned_class_method := cleaned_class ++ '.' :: method_name
          match assocLookup cleaned_class_method durations with
          | some d => some d
          | none =>
            let method_lower := pyLower method_name
            match durations.find?
                (fun kv => (pySplitChar '.' kv.1).getLastD [] |> pyLower
                  |> (· = method_lower)) with
            | some kv => some kv.2
            | none => none
      else none

/-- One iteration of the dedup loop of `get_full_report_data_from_db`
(src/parsers/data_builder.py lines 394-438). Observability counters
(`matched_logs`, `matched_durations`) are not modelled. -/
def get_full_report_data_step (execution_logs : List (List Char × List Char))
    (durations : List (List Char × ℚ))
    (m : List (List Char × TestResultM)) (db_row : DbRow) :
    List (List Char × TestResultM) :=
  if db_row.testcaseName.isEmpty then m
  else
    let execution_log := find_matching_execution_log db_row.testcaseName execution_logs
    let duration := find_matching_duration db_row.testcaseName durations
    match db_row_to_test_result db_row execution_log duration with
    | none => m
    | some test_result =>
      match assocLookup db_row.testcaseName m with
      | none => m ++ [(db_row.testcaseName, test_result)]
      | some existing =>
        let should_replace :=
          if optTruthy execution_log && !optTruthy existing.execution_log then
            true
          else if (test_result.status = TestStatus.FAIL
                || test_result.status = TestStatus.ERROR)
              && existing.status = TestStatus.PASS then
            true
          else if optTruthy execution_log && optTruthy existing.execution_log then
            (test_result.status = TestStatus.FAIL
                || test_result.status = TestStatus.ERROR)
              && existing.status = TestStatus.PASS
          else false
        if should_replace then assocUpdate db_row.testcaseName test_result m else m

/-- Dedup core of `get_full_report_data_from_db`
(src/parsers/data_builder.py lines 374-458), as the mapping from raw rows to
the reconciled per-name records (summary statistics and report metadata are
downstream of this mapping). -/
def get_full_report_data_from_db (db_results : List DbRow)
    (execution_logs : List (List Char × List Char))
    (durations : List (List Char × ℚ)) : List (List Char × TestResultM) :=
  db_results.foldl (get_full_report_data_step execution_logs durations) []

/-! ### Reconciliation precedence (claim C1) -/

theorem assocLookup_append_single_of_some {V : Type} {name : List Char}
    {m : List (List Char × V)} {x : V} (k : List Char) (v : V)
    (h : assocLookup name m = some x) :
    assocLookup name (m ++ [(k, v)]) = some x := by
  induction m with
  | nil => simp [assocLookup] at h
  | cons kv rest ih =>
    obtain ⟨k', v'⟩ := kv
    by_cases hk : k' = name
    · simp only [assocLookup, if_pos hk] at h
      simp [assocLookup, hk, h]
    · simp only [assocLookup, if_neg hk] at h
      simp only [List.cons_append, assocLookup, if_neg hk]
      exact ih h

theorem assocLookup_append_single_of_none {V : Type} {name : List Char}
    {m : List (List Char × V)} (k : List Char) (v : V)
    (h : assocLookup name m = none) :
    assocLookup name (m ++ [(k, v)]) = if k = name then some v else none := by
  induction m with
  | nil => simp [assocLookup]
  | cons kv rest ih =>
    obtain ⟨k', v'⟩ := kv
    by_cases hk : k' = name
    · simp [assocLookup, if_pos hk] at h
    · simp only [assocLookup, if_neg hk] at h
      simp only [List.cons_append, assocLookup, if_neg hk]
      exact ih h

theorem assocLookup_update_of_some {V : Type} {name : List Char}
    {m : List (List Char × V)} {x : V} (k : List Char) (v : V)
    (h : assocLookup name m = some x) :
    assocLookup name (assocUpdate k v m) = if k = name then some v else some x := by
  induction m with
  | nil => simp [assocLookup] at h
  | cons kv rest ih =>
    obtain ⟨k', v'⟩ := kv
    by_cases hkk : k' = k
    · subst hkk
      by_cases hkn : k' = name
      · simp only [assocLookup, if_pos hkn] at h
        cases h
        simp [assocUpdate, assocLookup, hkn]
      · simp only [assocLookup, if_neg hkn] at h
        simp [assocUpdate, assocLookup, hkn, h]
    · by_cases hkn : k' = name
      · subst hkn
        simp only [assocLookup, if_pos rfl] at h
        cases h
        have hne : ¬ k = k' := fun hx => hkk hx.symm
        simp [assocUpdate, assocLookup, hkk, hne]
      · simp only [assocLookup, if_neg hkn] at h
        simp only [assocUpdate, assocLookup, if_neg hkk, if_neg hkn]
        exact ih h

theorem assocLookup_update_of_ne {V : Type} {name k : List Char} (v : V)
    (m : List (List Char × V)) (hk : ¬ k = name) :
    assocLookup name (assocUpdate k v m) = assocLookup name m := by
  induction m with
  | nil => simp [assocLookup, assocUpdate]
  | cons kv rest ih =>
    obtain ⟨k', v'⟩ := kv
    by_cases hkk : k' = k
    · subst hkk
      have hkn : ¬ k' = name := hk
      simp [assocUpdate, assocLookup, hkn]
    · simp [assocUpdate, assocLookup, hkk, ih]

theorem db_row_to_test_result_some {row : DbRow} {elog : Option (List Char)}
    {dur : Option ℚ} {tr : TestResultM}
    (h : db_row_to_test_result row elog dur = some tr) :
    tr.status = parse_test_status row.testStatus ∧ tr.execution_log = elog := by
  unfold db_row_to_test_result at h
  split at h
  · exact absurd h (by simp)
  · refine ⟨?_, ?_⟩ <;> (injection h with h'; rw [← h'])

/-- Every record held by a reachable reconciliation map carries exactly the
execution log its (raw-name) key resolves to. -/
def ReconLogInv (execution_logs : List (List Char × List Char))
    (m : List (List Char × TestResultM)) : Prop :=
  ∀ name tr, assocLookup name m = some tr →
    tr.execution_log = find_matching_execution_log name execution_logs

/-- The case split of one dedup iteration, with the dead branches of
`should_replace` discharged: the step either keeps the map, appends the new
record under its own name, or replaces the record at its own name. -/
theorem get_full_report_data_step_cases
    (logs : List (List Char × List Char)) (durs : List (List Char × ℚ))
    (m : List (List Char × TestResultM)) (row : DbRow) :
    get_full_report_data_step logs durs m row = m ∨
    (∃ cand, db_row_to_test_result row
        (find_matching_execution_log row.testcaseName logs)
        (find_matching_duration row.testcaseName durs) = some cand ∧
      ((assocLookup row.testcaseName m = none ∧
          get_full_report_data_step logs durs m row = m ++ [(row.testcaseName, cand)]) ∨
        ((∃ existing, assocLookup row.testcaseName m = some existing) ∧
          get_full_report_data_step logs durs m row = assocUpdate row.testcaseName cand m))) := by
  simp only [get_full_report_data_step]
  split
  · exact Or.inl rfl
  split
  · exact Or.inl rfl
  rename_i cand hconv
  split
  · rename_i hlook
    exact Or.inr ⟨cand, hconv, Or.inl ⟨hlook, rfl⟩⟩
  rename_i existing hlook
  repeat' split
  all_goals
    first
      | exact Or.inl rfl
      | exact Or.inr ⟨cand, hconv, Or.inr ⟨⟨existing, hlook⟩, rfl⟩⟩

theorem reconLogInv_step {logs : List (List Char × List Char)}
    {durs : List (List Char × ℚ)} {m : List (List Char × TestResultM)}
    (hinv : ReconLogInv logs m) (row : DbRow) :
    ReconLogInv logs (get_full_report_data_step logs durs m row) := by
  intro name tr htr
  rcases get_full_report_data_step_cases logs durs m row with heq | ⟨cand, hconv, hcase⟩
  · rw [heq] at htr
    exact hinv name tr htr
  · obtain ⟨hcs, hcl⟩ := db_row_to_test_result_some hconv
    rcases hcase with ⟨hnone, heq⟩ | ⟨⟨existing, hsome⟩, heq⟩
    · rw [heq] at htr
      cases hl : assocLookup name m with
      | some x =>
        rw [assocLookup_append_single_of_some _ _ hl] at htr
        cases htr
        exact hinv name _ hl
      | none =>
        rw [assocLookup_append_single_of_none _ _ hl] at htr
        split at htr
        · rename_i hkn
          cases htr
          rw [hcl, hkn]
        · exact absurd htr (by simp)
    · rw [heq] at htr
      cases hl : assocLookup name m with
      | some x =>
        rw [assocLookup_update_of_some _ _ hl] at htr
        split at htr
        · rename_i hkn
          cases htr
          rw [hcl, hkn]
        · cases htr
          exact hinv name _ hl
      | none =>
        by_cases hkn : row.testcaseName = name
        · subst hkn
          rw [hsome] at hl
          exact absurd hl (by simp)
        · rw [assocLookup_update_of_ne _ _ hkn, hl] at htr
          exact absurd htr (by simp)


/-- The `should_replace` chain evaluates to `false` when the existing entry's
log already equals the candidate's log lookup and the existing entry is not
PASS: backfill cannot fire and status precedence needs a PASS entry. -/
theorem should_replace_false_of_not_pass (elog : Option (List Char))
    (cand existing : TestResultM) (hlog : existing.execution_log = elog)
    (hex : existing.status ≠ TestStatus.PASS) :
    (if optTruthy elog && !optTruthy existing.execution_log then true
      else if (cand.status = TestStatus.FAIL || cand.status = TestStatus.ERROR)
          && existing.status = TestStatus.PASS then true
      else if optTruthy elog && optTruthy existing.execution_log then
        (cand.status = TestStatus.FAIL || cand.status = TestStatus.ERROR)
          && existing.status = TestStatus.PASS
      else false) = false := by
  rw [hlog]
  have h2 : decide (existing.status = TestStatus.PASS) = false := by
    simp [hex]
  cases hopt : optTruthy elog <;> simp [h2]

/-- The `should_replace` chain evaluates to `true` for a FAIL/ERROR candidate
over a PASS existing entry. -/
theorem should_replace_true_of_fail_over_pass (elog : Option (List Char))
    (cand existing : TestResultM)
    (hfe : (decide (cand.status = TestStatus.FAIL)
      || decide (cand.status = TestStatus.ERROR)) = true)
    (hex : existing.status = TestStatus.PASS) :
    (if optTruthy elog && !optTruthy existing.execution_log then true
      else if (cand.status = TestStatus.FAIL || cand.status = TestStatus.ERROR)
          && existing.status = TestStatus.PASS then true
      else if optTruthy elog && optTruthy existing.execution_log then
        (cand.status = TestStatus.FAIL || cand.status = TestStatus.ERROR)
          && existing.status = TestStatus.PASS
      else false) = true := by
  split
  · rfl
  · rw [if_pos (by simp [hfe, hex])]

/-- Once a name's record is failing (not PASS), later duplicate rows never make
it passing: the log-backfill branch cannot fire (the log lookup is a function of
the name, so the logs are equal), and the status branch needs a PASS entry. -/
theorem step_keeps_not_pass {logs : List (List Char × List Char)}
    {durs : List (List Char × ℚ)} {m : List (List Char × TestResultM)}
    {name : List Char} {tr tr' : TestResultM} (hinv : ReconLogInv logs m)
    (hlook : assocLookup name m = some tr) (hst : tr.status ≠ TestStatus.PASS)
    (row : DbRow)
    (hlook' : assocLookup name (get_full_report_data_step logs durs m row) = some tr') :
    tr'.status ≠ TestStatus.PASS := by
  revert hlook'
  simp only [get_full_report_data_step]
  split
  · intro h; rw [hlook] at h; cases h; exact hst
  split
  · intro h; rw [hlook] at h; cases h; exact hst
  rename_i cand hconv
  split
  · intro h
    rw [assocLookup_append_single_of_some _ _ hlook] at h
    cases h
    exact hst
  rename_i existing hrlook
  by_cases hn : row.testcaseName = name
  · subst hn
    rw [hlook] at hrlook
    cases hrlook
    have hlog : tr.execution_log =
        find_matching_execution_log row.testcaseName logs := hinv _ _ hlook
    rw [should_replace_false_of_not_pass _ cand tr hlog hst]
    simp only [Bool.false_eq_true, if_false]
    intro h
    rw [hlook] at h
    cases h
    exact hst
  · intro h
    rw [apply_ite (assocLookup name), assocLookup_update_of_ne _ _ hn, hlook,
      ite_self] at h
    cases h
    exact hst

/-- Processing a failing row leaves its name mapped to a non-PASS record. -/
theorem step_fail_not_pass {logs : List (List Char × List Char)}
    {durs : List (List Char × ℚ)} {m : List (List Char × TestResultM)}
    (hinv : ReconLogInv logs m) {row : DbRow} (hname : ¬ row.testcaseName.isEmpty = true)
    (hfail : parse_test_status row.testStatus = TestStatus.FAIL ∨
      parse_test_status row.testStatus = TestStatus.ERROR) :
    ∃ tr', assocLookup row.testcaseName
        (get_full_report_data_step logs durs m row) = some tr' ∧
      tr'.status ≠ TestStatus.PASS := by
  simp only [get_full_report_data_step]
  split
  · rename_i habs; exact absurd habs hname
  split
  · rename_i hconv
    exfalso
    unfold db_row_to_test_result at hconv
    rw [if_neg hname] at hconv
    exact absurd hconv (by simp)
  rename_i cand hconv
  obtain ⟨hcs, _⟩ := db_row_to_test_result_some hconv
  have hcand : cand.status ≠ TestStatus.PASS := by
    rw [hcs]
    rcases hfail with h | h <;> rw [h] <;> simp
  have hcandFE : (decide (cand.status = TestStatus.FAIL)
      || decide (cand.status = TestStatus.ERROR)) = true := by
    rw [hcs]
    rcases hfail with h | h <;> rw [h] <;> simp
  split
  · rename_i hrnone
    refine ⟨cand, ?_, hcand⟩
    rw [assocLookup_append_single_of_none _ _ hrnone]
    simp
  rename_i existing hrlook
  by_cases hex : existing.status = TestStatus.PASS
  · rw [should_replace_true_of_fail_over_pass _ cand existing hcandFE hex]
    simp only [if_true]
    refine ⟨cand, ?_, hcand⟩
    rw [assocLookup_update_of_some _ _ hrlook]
    simp
  · have hlog : existing.execution_log =
        find_matching_execution_log row.testcaseName logs := hinv _ _ hrlook
    rw [should_replace_false_of_not_pass _ cand existing hlog hex]
    simp only [Bool.false_eq_true, if_false]
    exact ⟨existing, hrlook, hex⟩

/-- A record never disappears from the map. -/
theorem step_keeps_key {logs : List (List Char × List Char)}
    {durs : List (List Char × ℚ)} {m : List (List Char × TestResultM)}
    {name : List Char} {tr : TestResultM}
    (hlook : assocLookup name m = some tr) (row : DbRow) :
    ∃ tr', assocLookup name (get_full_report_data_step logs durs m row) = some tr' := by
  rcases get_full_report_data_step_cases logs durs m row with heq | ⟨cand, _, hcase⟩
  · exact ⟨tr, by rw [heq, hlook]⟩
  · rcases hcase with ⟨_, heq⟩ | ⟨_, heq⟩
    · exact ⟨tr, by rw [heq, assocLookup_append_single_of_some _ _ hlook]⟩
    · rw [heq]
      rw [assocLookup_update_of_some _ _ hlook]
      by_cases hn : row.testcaseName = name
      · exact ⟨cand, by rw [if_pos hn]⟩
      · exact ⟨tr, by rw [if_neg hn]⟩

theorem fold_keeps_not_pass {logs : List (List Char × List Char)}
    {durs : List (List Char × ℚ)} (rows : List DbRow) :
    ∀ (m : List (List Char × TestResultM)) {name : List Char} {tr tr' : TestResultM},
      ReconLogInv logs m → assocLookup name m = some tr →
      tr.status ≠ TestStatus.PASS →
      assocLookup name (rows.foldl (get_full_report_data_step logs durs) m) = some tr' →
      tr'.status ≠ TestStatus.PASS := by
  induction rows with
  | nil =>
    intro m name tr tr' _ hlook hst hlook'
    simp only [List.foldl_nil] at hlook'
    rw [hlook] at hlook'
    cases hlook'
    exact hst
  | cons row rest ih =>
    intro m name tr tr' hinv hlook hst hlook'
    simp only [List.foldl_cons] at hlook'
    obtain ⟨trmid, hmid⟩ := @step_keeps_key _ durs _ _ _ hlook row
    have hmidst : trmid.status ≠ TestStatus.PASS :=
      step_keeps_not_pass hinv hlook hst row hmid
    exact ih _ (reconLogInv_step hinv row) hmid hmidst hlook'

theorem reconLogInv_fold {logs : List (List Char × List Char)}
    {durs : List (List Char × ℚ)} (rows : List DbRow) :
    ∀ (m : List (List Char × TestResultM)), ReconLogInv logs m →
      ReconLogInv logs (rows.foldl (get_full_report_data_step logs durs) m) := by
  induction rows with
  | nil => intro m h; exact h
  | cons row rest ih => intro m h; exact ih _ (reconLogInv_step h row)

theorem step_nil (logs : List (List Char × List Char)) (durs : List (List Char × ℚ))
    (row : DbRow) (hname : ¬ row.testcaseName.isEmpty = true) {cand : TestResultM}
    (hconv : db_row_to_test_result row
      (find_matching_execution_log row.testcaseName logs)
      (find_matching_duration row.testcaseName durs) = some cand) :
    get_full_report_data_step logs durs [] row = [(row.testcaseName, cand)] := by
  simp only [get_full_report_data_step, hconv, assocLookup]
  rw [if_neg hname]
  simp

theorem step_single_keep (logs : List (List Char × List Char))
    (durs : List (List Char × ℚ)) (row : DbRow) (ex : TestResultM)
    (hex : ex.status ≠ TestStatus.PASS)
    (hlog : ex.execution_log = find_matching_execution_log row.testcaseName logs)
    (hname : ¬ row.testcaseName.isEmpty = true) :
    get_full_report_data_step logs durs [(row.testcaseName, ex)] row =
      [(row.testcaseName, ex)] := by
  simp only [get_full_report_data_step]
  rw [if_neg hname]
  cases hconv : db_row_to_test_result row
      (find_matching_execution_log row.testcaseName logs)
      (find_matching_duration row.testcaseName durs) with
  | none => rfl
  | some cand =>
    have hlook : assocLookup row.testcaseName [(row.testcaseName, ex)] = some ex := by
      simp [assocLookup]
    simp only [hlook]
    rw [should_replace_false_of_not_pass _ cand ex hlog hex]
    simp

theorem step_single_replace (logs : List (List Char × List Char))
    (durs : List (List Char × ℚ)) (row : DbRow) (ex : TestResultM)
    (hex : ex.status = TestStatus.PASS)
    (hfe : parse_test_status row.testStatus = TestStatus.FAIL ∨
      parse_test_status row.testStatus = TestStatus.ERROR)
    (hname : ¬ row.testcaseName.isEmpty = true) {cand : TestResultM}
    (hconv : db_row_to_test_result row
      (find_matching_execution_log row.testcaseName logs)
      (find_matching_duration row.testcaseName durs) = some cand) :
    get_full_report_data_step logs durs [(row.testcaseName, ex)] row =
      [(row.testcaseName, cand)] := by
  obtain ⟨hcs, _⟩ := db_row_to_test_result_some hconv
  have hcandFE : (decide (cand.status = TestStatus.FAIL)
      || decide (cand.status = TestStatus.ERROR)) = true := by
    rw [hcs]
    rcases hfe with h | h <;> rw [h] <;> simp
  simp only [get_full_report_data_step]
  rw [if_neg hname]
  have hlook : assocLookup row.testcaseName [(row.testcaseName, ex)] = some ex := by
    simp [assocLookup]
  simp only [hconv, hlook]
  rw [should_replace_true_of_fail_over_pass _ cand ex hcandFE hex]
  simp [assocUpdate]

/-- C1. Reconciliation precedence. For a duplicate pair under one raw name, a
FAIL/ERROR row wins over a PASS row in either processing order (first
conjunct: the survivor carries the failing row's parsed status). In general a
PASS survivor implies no FAIL/ERROR duplicate of that name existed in the
batch (second conjunct): a FAIL/ERROR entry is never replaced by a PASS
candidate. (Within one batch the log lookup is a function of the raw name, so
duplicate rows of one name always resolve to the same log; the claim's
premise of a log-less FAIL row colliding with a logged PASS row cannot arise,
and the log-backfill branch never fires against a failing entry.) -/
theorem C1_reconciliation_precedence :
    (∀ (logs : List (List Char × List Char)) (durs : List (List Char × ℚ))
        (r1 r2 : DbRow) (tr : TestResultM),
        r1.testcaseName = r2.testcaseName →
        ¬ r1.testcaseName.isEmpty = true →
        (parse_test_status r1.testStatus = TestStatus.FAIL ∨
          parse_test_status r1.testStatus = TestStatus.ERROR) →
        parse_test_status r2.testStatus = TestStatus.PASS →
        ((assocLookup r1.testcaseName
            (get_full_report_data_from_db [r1, r2] logs durs) = some tr →
            tr.status = parse_test_status r1.testStatus) ∧
          (assocLookup r1.testcaseName
            (get_full_report_data_from_db [r2, r1] logs durs) = some tr →
            tr.status = parse_test_status r1.testStatus))) ∧
    (∀ (rows : List DbRow) (logs : List (List Char × List Char))
        (durs : List (List Char × ℚ)) (name : List Char) (tr : TestResultM),
        assocLookup name (get_full_report_data_from_db rows logs durs) = some tr →
        tr.status = TestStatus.PASS →
        ∀ r ∈ rows, r.testcaseName = name → ¬ r.testcaseName.isEmpty = true →
        ¬(parse_test_status r.testStatus = TestStatus.FAIL ∨
          parse_test_status r.testStatus = TestStatus.ERROR)) := by
  constructor
  · intro logs durs r1 r2 tr hname hne hfe hpass
    have hne2 : ¬ r2.testcaseName.isEmpty = true := by rw [← hname]; exact hne
    cases hconv1 : db_row_to_test_result r1
        (find_matching_execution_log r1.testcaseName logs)
        (find_matching_duration r1.testcaseName durs) with
    | none =>
      exfalso
      unfold db_row_to_test_result at hconv1
      rw [if_neg hne] at hconv1
      exact absurd hconv1 (by simp)
    | some cand1 =>
      obtain ⟨hcs1, hcl1⟩ := db_row_to_test_result_some hconv1
      have hex1 : cand1.status ≠ TestStatus.PASS := by
        rw [hcs1]
        rcases hfe with h | h <;> rw [h] <;> simp
      constructor
      · -- FAIL row first, PASS row second: the backfill branch cannot fire
        unfold get_full_report_data_from_db
        simp only [List.foldl_cons, List.foldl_nil]
        rw [step_nil logs durs r1 hne hconv1, hname]
        rw [step_single_keep logs durs r2 cand1 hex1 (by rw [hcl1, hname]) hne2]
        intro h
        simp only [assocLookup, if_pos rfl] at h
        cases h
        exact hcs1
      · -- PASS row first, FAIL row second: status precedence replaces it
        cases hconv2 : db_row_to_test_result r2
            (find_matching_execution_log r2.testcaseName logs)
            (find_matching_duration r2.testcaseName durs) with
        | none =>
          exfalso
          unfold db_row_to_test_result at hconv2
          rw [if_neg hne2] at hconv2
          exact absurd hconv2 (by simp)
        | some cand2 =>
          obtain ⟨hcs2, _⟩ := db_row_to_test_result_some hconv2
          have hex2 : cand2.status = TestStatus.PASS := by rw [hcs2, hpass]
          unfold get_full_report_data_from_db
          simp only [List.foldl_cons, List.foldl_nil]
          rw [step_nil logs durs r2 hne2 hconv2, ← hname]
          rw [step_single_replace logs durs r1 cand2 hex2 hfe hne
            (by rw [hname] at hconv1 ⊢; exact hconv1)]
          intro h
          simp only [assocLookup, if_pos rfl] at h
          cases h
          exact hcs1
  · intro rows logs durs name tr hfinal hpass r hr hrname hrne hfe
    obtain ⟨pre, post, rfl⟩ := List.append_of_mem hr
    unfold get_full_report_data_from_db at hfinal
    rw [List.foldl_append, List.foldl_cons] at hfinal
    have hinv1 : ReconLogInv logs (pre.foldl (get_full_report_data_step logs durs) []) := by
      apply reconLogInv_fold
      intro n tr0 h0
      simp [assocLookup] at h0
    obtain ⟨tr0, hmid, hst0⟩ := @step_fail_not_pass _ durs _ hinv1 _ hrne hfe
    rw [hrname] at hmid
    exact fold_keeps_not_pass post _ (reconLogInv_step hinv1 r) hmid hst0 hfinal hpass

/-- C1 (witness): a concrete FAIL/PASS duplicate pair for `"T.m"` where the
PASS row carries the (shared) log; the survivor's status is FAIL. -/
theorem C1_witness :
    ({ class_name := "T".toList, method_name := "m".toList,
       status := TestStatus.FAIL, duration_seconds := 0, platform := none,
       execution_log := some "log".toList } : TestResultM).status =
      parse_test_status "FAILED".toList :=
  (C1_reconciliation_precedence.1 [("T.m".toList, "log".toList)] []
    ⟨"T.m".toList, "FAILED".toList⟩ ⟨"T.m".toList, "PASSED".toList⟩ _
    rfl (by decide) (Or.inl (by decide)) (by decide)).1 (by decide)

/-! ## History & Classification Engine: recurring failures
(src/agent/memory.py, `_detect_recurring_failures_from_db`)

One execution record per (test, build), newest first, as retrieved by
`_get_test_execution_history_from_db` (which orders by id/date descending and
limits each test's rows to `Config.FLAKY_TESTS_LAST_RUNS`, line 368). The
per-test pipeline (lines 594-862) counts failures, builds the history vector,
recomputes the occurrence count from it and filters on the configured minimum.
The fields built from `normalize_root_cause` and the classification heuristic
(`failure_pattern`, `same_reason`, `most_common_classification`, `consistency`,
`is_flaky`, `dates`) are diagnostic labels computed beside the history vector;
they are not consulted by any of the claims and are not modelled here
(`most_common_classification` additionally depends on Python set iteration
order). -/

/-- One historical execution record (the dictionary built in
src/agent/memory.py lines 372-415). -/
structure ExecRecord where
  testStatus : Option (List Char)
  failureReason : Option (List Char)
  buildTag : Option (List Char)
  execId : Option Int
  dateStr : Option (List Char)
deriving DecidableEq, Repr

/-- Failure test used for the raw count (src/agent/memory.py lines 598-605):
a truthy `testStatus` whose upper-cased, stripped form is a failure synonym. -/
def exec_is_failure_counted (e : ExecRecord) : Bool :=
  match e.testStatus with
  | some s =>
    if !s.isEmpty then
      (pyStrip (pyUpper s)) ∈
        ["FAIL".toList, "FAILED".toList, "ERROR".toList, "FAILURE".toList]
    else false
  | none => false

/-- Raw per-test failure count from the database rows
(src/agent/memory.py lines 597-607). -/
def count_failures (executions : List ExecRecord) : Nat :=
  executions.countP exec_is_failure_counted

/-- Failure test used while building the history vector
(src/agent/memory.py lines 656-675): failure synonyms are failures; pass
synonyms, unknown tokens and missing statuses are passes (optimistic default). -/
def exec_history_is_failure (e : ExecRecord) : Bool :=
  match e.testStatus with
  | some s =>
    if !s.isEmpty then
      let status := pyStrip (pyUpper s)
      if status ∈ ["FAIL".toList, "FAILED".toList, "ERROR".toList, "FAILURE".toList] then
        true
      else if status ∈ ["PASS".toList, "PASSED".toList, "SUCCESS".toList, "OK".toList] then
        false
      else false
    else false
  | none => false

/-- History vector construction (src/agent/memory.py lines 650-689): newest
`lastRuns` executions, oldest first, 0=fail/1=pass, truncated to the newest 10
or left-padded with 1s to length 10 (the `10` is the literal in the source,
`Config.FLAKY_TESTS_LAST_RUNS` is only the retrieval limit). -/
def build_history (executions : List ExecRecord) (lastRuns : Nat) : List Nat :=
  let execs := executions.take lastRuns
  let base := execs.reverse.map (fun e => if exec_history_is_failure e then 0 else 1)
  if 10 < base.length then base.drop (base.length - 10)
  else List.replicate (10 - base.length) 1 ++ base

/-- Fallback history when the vector is empty (src/agent/memory.py lines
692-703); unreachable after padding, embedded for faithfulness. -/
def default_history (count : Nat) : List Nat :=
  if 7 ≤ count then [0, 0, 0, 0, 0, 0, 0, 0, 0, 0]
  else if 5 ≤ count then [0, 0, 0, 0, 0, 1, 0, 1, 0, 1]
  else if 3 ≤ count then [0, 0, 1, 0, 1, 0, 1, 0, 1, 0]
  else [1, 0, 1, 0, 1, 0, 1, 0, 1, 0]

/-- One entry of `execution_details` (src/agent/memory.py lines 779-822);
absent dictionary keys are `none`/`false`. -/
structure ExecDetail where
  index : Nat
  status : List Char
  history_index : Nat
  padded : Bool
  execId : Option Int
  buildTag : Option (List Char)
  dateStr : Option (List Char)
  failureReason : Option (List Char)
  testStatus : Option (List Char)
deriving DecidableEq, Repr

/-- Loop body of the `execution_details` construction
(src/agent/memory.py lines 778-822). -/
def mk_exec_detail (reversed_executions : List ExecRecord) (padding_count : Nat)
    (history_length : Nat) (currentFailure : Bool) (idx : Nat) (hist_status : Nat) :
    ExecDetail :=
  let base : ExecDetail :=
    { index := idx
      status := if hist_status = 1 then "pass".toList else "fail".toList
      history_index := idx
      padded := false
      execId := none
      buildTag := none
      dateStr := none
      failureReason := none
      testStatus := none }
  if idx < padding_count then
    { base with padded := true, testStatus := some "PASSED".toList }
  else if idx - padding_count < reversed_executions.length then
    let e := reversed_executions.getD (idx - padding_count)
      ⟨none, none, none, none, none⟩
    let corrected := if hist_status = 1 then "PASSED".toList else "FAILED".toList
    let error_msg0 := e.failureReason.getD []
    let error_msg :=
      if idx = history_length - 1 && currentFailure && decide (hist_status = 0) then
        if error_msg0.isEmpty || (pyStrip error_msg0).isEmpty then
          "Test failed in current build".toList
        else error_msg0
      else error_msg0
    { base with
        execId := e.execId
        buildTag := e.buildTag
        dateStr := some ((e.dateStr).getD [])
        failureReason := some error_msg
        testStatus := some corrected }
  else
    { base with padded := true }

/-- `execution_details` (src/agent/memory.py lines 760-822), aligned with the
final history vector. -/
def build_execution_details (executions : List ExecRecord) (history : List Nat)
    (currentFailure : Bool) : List ExecDetail :=
  let reversed_executions := (executions.take 10).reverse
  let padding_count := history.length - reversed_executions.length
  history.enum.map (fun p =>
    mk_exec_detail reversed_executions padding_count history.length currentFailure p.1 p.2)

/-- One recurring-failure record (src/agent/memory.py lines 824-838), with
the claim-relevant fields. -/
structure RecurringRec where
  occurrences : Nat
  history : List Nat
  execution_details : List ExecDetail
  in_current_run : Bool
deriving DecidableEq, Repr

/-- The per-test body of `_detect_recurring_failures_from_db`
(src/agent/memory.py lines 594-862): gate on the raw failure count, build the
history vector, recompute the occurrence count as the number of 0s in it
(lines 705-725, the recomputation is applied twice with the same result), and
keep the record only if the recomputed count meets the minimum
(lines 840-853). -/
def detect_recurring_one (executions : List ExecRecord) (lastRuns minOcc : Nat)
    (currentFailure : Bool) : Option RecurringRec :=
  let failure_count := count_failures executions
  if minOcc ≤ failure_count then
    let history0 := build_history executions lastRuns
    let history := if history0.isEmpty then default_history failure_count else history0
    let occurrences := history.countP (fun v => v = 0)
    let details := build_execution_details executions history currentFailure
    if minOcc ≤ occurrences then
      some { occurrences := occurrences, history := history,
             execution_details := details, in_current_run := currentFailure }
    else none
  else none

/-- The pipeline from the raw newest-first database rows of one test:
`_get_test_execution_history_from_db` keeps the newest `limit_per_test`
(= `Config.FLAKY_TESTS_LAST_RUNS`) rows (src/agent/memory.py lines 364-368),
then the per-test detection body runs. -/
def detect_recurring_from_rows (rows : List ExecRecord) (lastRuns minOcc : Nat)
    (currentFailure : Bool) : Option RecurringRec :=
  detect_recurring_one (rows.take lastRuns) lastRuns minOcc currentFailure

/-! ### History-engine lemmas and claims C3, C4, C7 -/

theorem build_history_length (executions : List ExecRecord) (lastRuns : Nat) :
    (build_history executions lastRuns).length = 10 := by
  simp only [build_history]
  split
  · rename_i h
    rw [List.length_drop]
    omega
  · rename_i h
    rw [List.length_append, List.length_replicate]
    simp only [List.length_map, List.length_reverse] at h ⊢
    omega

theorem detect_recurring_from_rows_shape {rows : List ExecRecord}
    {lastRuns minOcc : Nat} {cf : Bool} {rec : RecurringRec}
    (h : detect_recurring_from_rows rows lastRuns minOcc cf = some rec) :
    rec.history = build_history (rows.take lastRuns) lastRuns ∧
    rec.occurrences =
      (build_history (rows.take lastRuns) lastRuns).countP (fun v => v = 0) ∧
    rec.execution_details = build_execution_details (rows.take lastRuns)
      (build_history (rows.take lastRuns) lastRuns) cf ∧
    rec.in_current_run = cf ∧
    minOcc ≤ rec.occurrences ∧
    minOcc ≤ count_failures (rows.take lastRuns) := by
  simp only [detect_recurring_from_rows, detect_recurring_one] at h
  have hne : ¬ (build_history (rows.take lastRuns) lastRuns).isEmpty = true := by
    rw [List.isEmpty_iff_length_eq_zero, build_history_length]
    simp
  rw [if_neg hne] at h
  split at h
  · rename_i hcount
    split at h
    · rename_i hocc
      cases h
      exact ⟨rfl, rfl, rfl, rfl, hocc, hcount⟩
    · exact absurd h (by simp)
  · exact absurd h (by simp)

/-- C3. Recomputed-count consistency: whenever the per-test pipeline emits a
recurring-failure record, its reported occurrence count is exactly the number
of 0 (fail) entries of its final history vector, and the record qualified as
recurring only because this recomputed count meets the configured minimum. -/
theorem C3_recomputed_count (rows : List ExecRecord) (lastRuns minOcc : Nat)
    (cf : Bool) (rec : RecurringRec)
    (h : detect_recurring_from_rows rows lastRuns minOcc cf = some rec) :
    rec.occurrences = rec.history.countP (fun v => v = 0) ∧
    minOcc ≤ rec.occurrences := by
  obtain ⟨hh, ho, _, _, hmin, _⟩ := detect_recurring_from_rows_shape h
  refine ⟨?_, hmin⟩
  rw [hh, ho]

/-- Rows of the C3 witness: three failing executions (newest first). -/
def rowsC3 : List ExecRecord :=
  List.replicate 3 ⟨some "FAILED".toList, none, none, none, none⟩

/-- Padded pass entry of the witness records. -/
def pdet (i : Nat) : ExecDetail :=
  ⟨i, "pass".toList, i, true, none, none, none, none, some "PASSED".toList⟩

/-- Non-padded failing entry of the witness records (no id/buildTag/date). -/
def fdet (i : Nat) : ExecDetail :=
  ⟨i, "fail".toList, i, false, none, none, some [], some [], some "FAILED".toList⟩

/-- The record the pipeline produces on `rowsC3`. -/
def wrecC3 : RecurringRec :=
  { occurrences := 3
    history := [1, 1, 1, 1, 1, 1, 1, 0, 0, 0]
    execution_details := (List.range 7).map pdet ++ [fdet 7, fdet 8, fdet 9]
    in_current_run := false }

/-- C3 (witness). -/
theorem C3_witness :
    wrecC3.occurrences = wrecC3.history.countP (fun v => v = 0) ∧
    3 ≤ wrecC3.occurrences :=
  C3_recomputed_count rowsC3 10 3 false wrecC3 (by decide)

/-- C4 (counterexample). The spec claims the history vector always has the
*configured* window size W. With `FLAKY_TESTS_LAST_RUNS = 12` and twelve real
executions the vector still has the hardcoded length 10, not 12. -/
def rowsC4 : List ExecRecord :=
  List.replicate 12 ⟨some "FAILED".toList, none, none, none, none⟩

theorem C4_counterexample :
    (detect_recurring_from_rows rowsC4 12 3 true).map (fun r => r.history.length) =
      some 10 ∧
    ¬ (detect_recurring_from_rows rowsC4 12 3 true).map (fun r => r.history.length) =
      some 12 := by
  constructor <;> decide

/-- C4 (amended). The constructed history vector always has length exactly 10
— the literal in the padding/truncation code — for every number of real
executions and every configured `FLAKY_TESTS_LAST_RUNS`; it equals the
configured window size only when that size is the default 10, in which case
fewer than 10 real executions are left-padded with passes at the oldest
positions and more than 10 keep only the newest 10. -/
theorem C4_history_length (rows : List ExecRecord) (lastRuns minOcc : Nat)
    (cf : Bool) (rec : RecurringRec)
    (h : detect_recurring_from_rows rows lastRuns minOcc cf = some rec) :
    rec.history.length = 10 ∧
    (lastRuns = 10 →
      (rows.length ≤ 10 →
        rec.history = List.replicate (10 - rows.length) 1 ++
          rows.reverse.map (fun e => if exec_history_is_failure e then 0 else 1)) ∧
      (10 < rows.length →
        rec.history = (rows.take 10).reverse.map
          (fun e => if exec_history_is_failure e then 0 else 1))) := by
  obtain ⟨hh, _⟩ := detect_recurring_from_rows_shape h
  constructor
  · rw [hh, build_history_length]
  · intro hW
    subst hW
    constructor
    · intro hlen
      rw [hh]
      have hexecs : (rows.take 10).take 10 = rows := by
        rw [List.take_take]
        simp only [Nat.min_self]
        exact List.take_of_length_le hlen
      simp only [build_history, hexecs]
      rw [if_neg (by simp only [List.length_map, List.length_reverse]; omega)]
      simp only [List.length_map, List.length_reverse]
    · intro hlen
      rw [hh]
      have hexecs : (rows.take 10).take 10 = rows.take 10 := by
        rw [List.take_take]
        simp
      simp only [build_history, hexecs]
      have hblen : ((rows.take 10).reverse.map
          (fun e => if exec_history_is_failure e then (0 : Nat) else 1)).length = 10 := by
        simp only [List.length_map, List.length_reverse, List.length_take]
        omega
      rw [if_neg (by rw [hblen]; omega), hblen]
      simp

/-- Rows of the C4 witness: three failing executions (newest first). -/
def rowsC4w : List ExecRecord :=
  List.replicate 3 ⟨some "FAILED".toList, none, none, none, none⟩

/-- The record the pipeline produces on `rowsC4w`. -/
def wrecC4 : RecurringRec :=
  { occurrences := 3
    history := [1, 1, 1, 1, 1, 1, 1, 0, 0, 0]
    execution_details := (List.range 7).map pdet ++ [fdet 7, fdet 8, fdet 9]
    in_current_run := false }

/-- C4 (witness): with the default window 10 and three real executions, the
vector is left-padded to length 10. -/
theorem C4_witness :
    wrecC4.history = List.replicate (10 - rowsC4w.length) 1 ++
      rowsC4w.reverse.map (fun e => if exec_history_is_failure e then 0 else 1) :=
  ((C4_history_length rowsC4w 10 3 false wrecC4 (by decide)).2 rfl).1 (by decide)

/-- Rows of the C7 scenario: 12 executions, newest first, whose
oldest-to-newest pattern is P,P,F,F,F,F,F,F,F,F,F,F. -/
def rowsC7 : List ExecRecord :=
  List.replicate 10 ⟨some "FAILED".toList, none, none, none, none⟩ ++
    List.replicate 2 ⟨some "PASSED".toList, none, none, none, none⟩

/-- C7 (counterexample). The spec's scenario asserts a recomputed count of 9;
the pipeline yields 10 (the retrieval limit keeps the newest 10 executions,
all of which are failures). -/
theorem C7_counterexample :
    (detect_recurring_from_rows rowsC7 10 3 false).map (fun r => r.occurrences) =
      some 10 ∧
    ¬ (detect_recurring_from_rows rowsC7 10 3 false).map (fun r => r.occurrences) =
      some 9 := by
  constructor <;> decide

/-- C7 (amended). For 12 executions with oldest-to-newest pattern
[P,P,F×10] and window 10, the vector is exactly the newest 10 entries (no
padding) — here all failures — and the recomputed count is 10 (not 9, not 8). -/
theorem C7_truncation_scenario :
    (detect_recurring_from_rows rowsC7 10 3 false).map
        (fun r => (r.history, r.occurrences)) =
      some ((rowsC7.take 10).reverse.map
        (fun e => if exec_history_is_failure e then 0 else 1), 10) ∧
    (rowsC7.take 10).reverse.map
        (fun e => if exec_history_is_failure e then 0 else 1) =
      List.replicate 10 0 := by
  constructor <;> decide

/-! ### Execution-detail alignment (claim C8) -/

theorem build_history_eq_pad (rows : List ExecRecord) (lastRuns : Nat) :
    build_history (rows.take lastRuns) lastRuns =
      List.replicate (10 - ((rows.take lastRuns).take 10).reverse.length) 1 ++
        ((rows.take lastRuns).take 10).reverse.map
          (fun e => if exec_history_is_failure e then 0 else 1) := by
  have hexecs : (rows.take lastRuns).take lastRuns = rows.take lastRuns := by
    rw [List.take_take]
    simp
  simp only [build_history, hexecs]
  by_cases hn : (rows.take lastRuns).length ≤ 10
  · have ht : (rows.take lastRuns).take 10 = rows.take lastRuns :=
      List.take_of_length_le hn
    rw [ht]
    rw [if_neg (by simp only [List.length_map, List.length_reverse]; omega)]
    simp only [List.length_map, List.length_reverse]
  · push_neg at hn
    rw [if_pos (by simp only [List.length_map, List.length_reverse]; omega)]
    have hlen10 : ((rows.take lastRuns).take 10).reverse.length = 10 := by
      simp only [List.length_reverse, List.length_take] at hn ⊢
      omega
    rw [hlen10]
    simp only [Nat.sub_self, List.replicate_zero, List.nil_append]
    rw [List.length_map, List.length_reverse, ← List.map_drop]
    conv_rhs => rw [List.reverse_take]

theorem getD_append_left' {α : Type} (l1 l2 : List α) (i : Nat) (d : α)
    (h : i < l1.length) : (l1 ++ l2).getD i d = l1.getD i d := by
  rw [List.getD_eq_getElem _ _ (by rw [List.length_append]; omega),
    List.getElem_append_left h, List.getD_eq_getElem _ _ h]

theorem getD_append_right' {α : Type} (l1 l2 : List α) (i : Nat) (d : α)
    (h : l1.length ≤ i) (h2 : i - l1.length < l2.length) :
    (l1 ++ l2).getD i d = l2.getD (i - l1.length) d := by
  rw [List.getD_eq_getElem _ _ (by rw [List.length_append]; omega),
    List.getElem_append_right h, List.getD_eq_getElem _ _ h2]

theorem getD_replicate' {α : Type} (n : Nat) (a : α) (i : Nat) (d : α)
    (h : i < n) : (List.replicate n a).getD i d = a := by
  rw [List.getD_eq_getElem _ _ (by rw [List.length_replicate]; exact h)]
  simp

/-- C8. Execution-detail alignment. Every emitted record carries an
`execution_details` list of the same length as its history vector; entry `i`
is either a padded placeholder (when `i` falls in the left-padding region,
with no execution attached and a padded pass history bit) or describes
exactly the real execution the history bit was derived from: the
oldest-to-newest reversal of the (newest-first) used executions, indexed at
`i - padding`, with matching pass/fail status. -/
theorem C8_execution_detail_alignment (rows : List ExecRecord)
    (lastRuns minOcc : Nat) (cf : Bool) (rec : RecurringRec)
    (h : detect_recurring_from_rows rows lastRuns minOcc cf = some rec) :
    rec.execution_details.length = rec.history.length ∧
    rec.history =
      List.replicate (10 - ((rows.take lastRuns).take 10).reverse.length) 1 ++
        ((rows.take lastRuns).take 10).reverse.map
          (fun e => if exec_history_is_failure e then 0 else 1) ∧
    ∀ i (hi : i < rec.execution_details.length),
      (i < 10 - ((rows.take lastRuns).take 10).reverse.length ∧
        (rec.execution_details[i]).padded = true ∧
        (rec.execution_details[i]).execId = none ∧
        (rec.execution_details[i]).buildTag = none ∧
        (rec.execution_details[i]).failureReason = none ∧
        (rec.execution_details[i]).testStatus = some "PASSED".toList ∧
        rec.history.getD i 1 = 1) ∨
      (10 - ((rows.take lastRuns).take 10).reverse.length ≤ i ∧
        (rec.execution_details[i]).padded = false ∧
        ∃ hj : i - (10 - ((rows.take lastRuns).take 10).reverse.length) <
            ((rows.take lastRuns).take 10).reverse.length,
          (rec.execution_details[i]).execId =
            (((rows.take lastRuns).take 10).reverse.get
              ⟨i - (10 - ((rows.take lastRuns).take 10).reverse.length), hj⟩).execId ∧
          (rec.execution_details[i]).buildTag =
            (((rows.take lastRuns).take 10).reverse.get
              ⟨i - (10 - ((rows.take lastRuns).take 10).reverse.length), hj⟩).buildTag ∧
          rec.history.getD i 1 =
            (if exec_history_is_failure
              (((rows.take lastRuns).take 10).reverse.get
                ⟨i - (10 - ((rows.take lastRuns).take 10).reverse.length), hj⟩)
              then 0 else 1) ∧
          (rec.execution_details[i]).testStatus =
            some (if exec_history_is_failure
              (((rows.take lastRuns).take 10).reverse.get
                ⟨i - (10 - ((rows.take lastRuns).take 10).reverse.length), hj⟩)
              then "FAILED".toList else "PASSED".toList) ∧
          (rec.execution_details[i]).status =
            (if exec_history_is_failure
              (((rows.take lastRuns).take 10).reverse.get
                ⟨i - (10 - ((rows.take lastRuns).take 10).reverse.length), hj⟩)
              then "fail".toList else "pass".toList)) := by
  obtain ⟨hh, _, hd, _, _, _⟩ := detect_recurring_from_rows_shape h
  have hhlen : rec.history.length = 10 := by rw [hh, build_history_length]
  have hpadeq : rec.history =
      List.replicate (10 - ((rows.take lastRuns).take 10).reverse.length) 1 ++
        ((rows.take lastRuns).take 10).reverse.map
          (fun e => if exec_history_is_failure e then 0 else 1) := by
    rw [hh, build_history_eq_pad]
  have hrevlen : ((rows.take lastRuns).take 10).reverse.length ≤ 10 := by
    rw [List.length_reverse, List.length_take]
    exact min_le_left _ _
  have hd' : rec.execution_details =
      build_execution_details (rows.take lastRuns) rec.history cf := by
    rw [hd, ← hh]
  have hdlen : rec.execution_details.length = rec.history.length := by
    rw [hd']
    simp [build_execution_details, List.enum_length]
  refine ⟨hdlen, hpadeq, ?_⟩
  intro i hi
  have hi10 : i < 10 := by omega
  have hihist : i < rec.history.length := by omega
  have hidet : rec.execution_details[i] =
      mk_exec_detail ((rows.take lastRuns).take 10).reverse
        (rec.history.length - ((rows.take lastRuns).take 10).reverse.length)
        rec.history.length cf i (rec.history[i]) := by
    simp only [hd', build_execution_details, List.getElem_map, List.getElem_enum]
  have hgetD : rec.history.getD i 1 = rec.history[i] :=
    List.getD_eq_getElem rec.history 1 hihist
  have hpadnum : rec.history.length - ((rows.take lastRuns).take 10).reverse.length =
      10 - ((rows.take lastRuns).take 10).reverse.length := by omega
  by_cases hcase : i < 10 - ((rows.take lastRuns).take 10).reverse.length
  · -- padded region
    left
    have hbit : rec.history[i] = 1 := by
      rw [← hgetD, hpadeq]
      rw [getD_append_left' _ _ _ _ (by rw [List.length_replicate]; exact hcase)]
      exact getD_replicate' _ _ _ _ hcase
    have hcond : i < rec.history.length -
        ((rows.take lastRuns).take 10).reverse.length := by omega
    have hdeteval : mk_exec_detail ((rows.take lastRuns).take 10).reverse
        (rec.history.length - ((rows.take lastRuns).take 10).reverse.length)
        rec.history.length cf i 1 =
        ⟨i, "pass".toList, i, true, none, none, none, none, some "PASSED".toList⟩ := by
      simp only [mk_exec_detail]
      rw [if_pos hcond]
      simp
    have hdet : rec.execution_details[i] =
        ⟨i, "pass".toList, i, true, none, none, none, none, some "PASSED".toList⟩ := by
      rw [hidet, hbit, hdeteval]
    rw [hdet]
    exact ⟨hcase, rfl, rfl, rfl, rfl, rfl, by rw [hgetD, hbit]⟩
  · -- real-execution region
    right
    push_neg at hcase
    have hj : i - (10 - ((rows.take lastRuns).take 10).reverse.length) <
        ((rows.take lastRuns).take 10).reverse.length := by omega
    have hbit : rec.history[i] =
        (if exec_history_is_failure
          (((rows.take lastRuns).take 10).reverse.get
            ⟨i - (10 - ((rows.take lastRuns).take 10).reverse.length), hj⟩)
          then 0 else 1) := by
      rw [← hgetD, hpadeq]
      rw [getD_append_right' _ _ _ _
        (by rw [List.length_replicate]; exact hcase)
        (by rw [List.length_replicate, List.length_map]; exact hj)]
      rw [List.length_replicate]
      rw [List.getD_eq_getElem _ _ (by rw [List.length_map]; exact hj)]
      rw [List.getElem_map]
      rfl
    have hidet' : rec.execution_details[i] =
        mk_exec_detail ((rows.take lastRuns).take 10).reverse
          (10 - ((rows.take lastRuns).take 10).reverse.length)
          rec.history.length cf i (rec.history[i]) := by
      rw [hidet, hpadnum]
    have hcond : ¬ i < 10 - ((rows.take lastRuns).take 10).reverse.length := by
      omega
    have hgd : ((rows.take lastRuns).take 10).reverse.getD
        (i - (10 - ((rows.take lastRuns).take 10).reverse.length))
        ⟨none, none, none, none, none⟩ =
        ((rows.take lastRuns).take 10).reverse.get
          ⟨i - (10 - ((rows.take lastRuns).take 10).reverse.length), hj⟩ :=
      List.getD_eq_getElem _ _ hj
    refine ⟨hcase, ?_, hj, ?_, ?_, ?_, ?_, ?_⟩
    · rw [hidet']
      simp only [mk_exec_detail]
      rw [if_neg hcond, if_pos hj]
    · rw [hidet']
      simp only [mk_exec_detail]
      rw [if_neg hcond, if_pos hj]
      rw [show (⟨none, none, none, none, none⟩ : ExecRecord) =
        { testStatus := none, failureReason := none, buildTag := none,
          execId := none, dateStr := none } from rfl, hgd]
    · rw [hidet']
      simp only [mk_exec_detail]
      rw [if_neg hcond, if_pos hj]
      rw [show (⟨none, none, none, none, none⟩ : ExecRecord) =
        { testStatus := none, failureReason := none, buildTag := none,
          execId := none, dateStr := none } from rfl, hgd]
    · rw [hgetD, hbit]
    · have hts : (mk_exec_detail ((rows.take lastRuns).take 10).reverse
          (10 - ((rows.take lastRuns).take 10).reverse.length)
          rec.history.length cf i (rec.history[i])).testStatus =
          some (if (rec.history[i]) = 1 then "PASSED".toList
            else "FAILED".toList) := by
        simp only [mk_exec_detail]
        rw [if_neg hcond, if_pos hj]
      rw [hidet', hts, hbit]
      cases hx : exec_history_is_failure
          (((rows.take lastRuns).take 10).reverse.get
            ⟨i - (10 - ((rows.take lastRuns).take 10).reverse.length), hj⟩) <;>
        simp
    · have hst : (mk_exec_detail ((rows.take lastRuns).take 10).reverse
          (10 - ((rows.take lastRuns).take 10).reverse.length)
          rec.history.length cf i (rec.history[i])).status =
          (if (rec.history[i]) = 1 then "pass".toList
            else "fail".toList) := by
        simp only [mk_exec_detail]
        rw [if_neg hcond, if_pos hj]
      rw [hidet', hst, hbit]
      cases hx : exec_history_is_failure
          (((rows.take lastRuns).take 10).reverse.get
            ⟨i - (10 - ((rows.take lastRuns).take 10).reverse.length), hj⟩) <;>
        simp

/-- Rows of the C8 witness: three executions (newest first) with ids and
build tags. -/
def rowsC8 : List ExecRecord :=
  [⟨some "FAILED".toList, some "boom".toList, some "b3".toList, some 3, none⟩,
   ⟨some "PASSED".toList, none, some "b2".toList, some 2, none⟩,
   ⟨some "FAILED".toList, some "boom".toList, some "b1".toList, some 1, none⟩]

/-- The record the pipeline produces on `rowsC8`. -/
def wrecC8 : RecurringRec :=
  { occurrences := 2
    history := [1, 1, 1, 1, 1, 1, 1, 0, 1, 0]
    execution_details :=
      (List.range 7).map pdet ++
      [⟨7, "fail".toList, 7, false, some 1, some "b1".toList, some [],
        some "boom".toList, some "FAILED".toList⟩,
       ⟨8, "pass".toList, 8, false, some 2, some "b2".toList, some [],
        some [], some "PASSED".toList⟩,
       ⟨9, "fail".toList, 9, false, some 3, some "b3".toList, some [],
        some "boom".toList, some "FAILED".toList⟩]
    in_current_run := false }

/-- C8 (witness). -/
theorem C8_witness : wrecC8.execution_details.length = wrecC8.history.length :=
  (C8_execution_detail_alignment rowsC8 10 2 false wrecC8 (by decide)).1

/-! ## A small regular-expression engine

The Python sources use `re.search` / `re.sub` on a fixed set of patterns.
The engine below interprets a regex AST over `List Char` with Python
semantics: leftmost match, greedy backtracking quantifiers, alternation
preferring the left branch, word boundaries, negative lookahead and capture
groups. A fuel argument bounds the (finitely many) backtracking steps; the
fuel passed by the entry points exceeds the worst case for every pattern in
this file because each quantifier iteration consumes at least one character. -/

inductive RE where
  | eps : RE
  | cls : (Char → Bool) → RE
  | seq : RE → RE → RE
  | alt : RE → RE → RE
  | star : RE → RE
  | wb : RE
  | nla : RE → RE
  | grp : Nat → RE → RE

def RE.size : RE → Nat
  | .eps => 1
  | .cls _ => 1
  | .seq a b => a.size + b.size + 1
  | .alt a b => a.size + b.size + 1
  | .star a => a.size + 1
  | .wb => 1
  | .nla a => a.size + 1
  | .grp _ a => a.size + 1

/-- Captured group spans (group number, start, end), most recent first. -/
def Caps : Type := List (Nat × Nat × Nat)

/-- Python `\w` (ASCII range; the inputs handled here are ASCII). -/
def isWordChar (c : Char) : Bool := c.isAlphanum || c = '_'

/-- One level of the backtracking matcher, in continuation-passing style,
structurally recursive over the regex; `looper` re-enters the matcher (one
fuel unit lower) for the next iteration of a `star`, which always advances by
at least one character. -/
def mGoAux (input : List Char)
    (looper : RE → Nat → Caps → (Nat → Caps → Option (Nat × Caps)) →
      Option (Nat × Caps)) :
    RE → Nat → Caps → (Nat → Caps → Option (Nat × Caps)) → Option (Nat × Caps)
  | .eps, i, caps, k => k i caps
  | .cls p, i, caps, k =>
    match input[i]? with
    | some c => if p c then k (i + 1) caps else none
    | none => none
  | .seq a b, i, caps, k =>
    mGoAux input looper a i caps (fun j caps2 => mGoAux input looper b j caps2 k)
  | .alt a b, i, caps, k =>
    (mGoAux input looper a i caps k).orElse
      (fun _ => mGoAux input looper b i caps k)
  | .star a, i, caps, k =>
    (mGoAux input looper a i caps (fun j caps2 =>
      if j = i then none else looper (.star a) j caps2 k)).orElse
      (fun _ => k i caps)
  | .wb, i, caps, k =>
    let prevWord := match i with
      | 0 => false
      | p + 1 => match input[p]? with
        | some c => isWordChar c
        | none => false
    let curWord := match input[i]? with
      | some c => isWordChar c
      | none => false
    if prevWord ≠ curWord then k i caps else none
  | .nla a, i, caps, k =>
    match mGoAux input looper a i caps (fun j caps2 => some (j, caps2)) with
    | some _ => none
    | none => k i caps
  | .grp n a, i, caps, k =>
    mGoAux input looper a i caps (fun j caps2 => k j ((n, i, j) :: caps2))

/-- Fuel-indexed matcher: the fuel bounds the total number of quantifier
iterations along a backtracking path. -/
def mGo (input : List Char) : Nat → RE → Nat → Caps →
    (Nat → Caps → Option (Nat × Caps)) → Option (Nat × Caps)
  | 0, _, _, _, _ => none
  | fuel + 1, r, i, caps, k => mGoAux input (mGo input fuel) r i caps k

/-- Fuel budget: generous for every pattern used in this file. -/
def reFuel (input : List Char) (r : RE) : Nat :=
  (input.length + 2) * (r.size + 2)

/-- Match attempt at a fixed position (Python `re.match` at an offset). -/
def matchAt (r : RE) (input : List Char) (i : Nat) : Option (Nat × Caps) :=
  mGo input (reFuel input r) r i [] (fun j caps => some (j, caps))

/-- Leftmost search (Python `re.search`): returns (start, end, captures). -/
def reSearchFrom (r : RE) (input : List Char) : Nat → Nat → Option (Nat × Nat × Caps)
  | _, 0 => none
  | start, rem + 1 =>
    match matchAt r input start with
    | some (e, caps) => some (start, e, caps)
    | none => reSearchFrom r input (start + 1) rem

def reSearch (r : RE) (input : List Char) : Option (Nat × Nat × Caps) :=
  reSearchFrom r input 0 (input.length + 1)

/-- `re.search(...) is not None`. -/
def reTest (r : RE) (input : List Char) : Bool := (reSearch r input).isSome

/-- Replacement template item: literal text or a group reference `\n`. -/
inductive ReplItem where
  | lit : List Char → ReplItem
  | ref : Nat → ReplItem

def capSpan (caps : Caps) (n : Nat) : Option (Nat × Nat) :=
  match caps with
  | [] => none
  | (m, s, e) :: rest => if m = n then some (s, e) else capSpan rest n

def applyRepl (tmpl : List ReplItem) (caps : Caps) (input : List Char) : List Char :=
  match tmpl with
  | [] => []
  | .lit s :: rest => s ++ applyRepl rest caps input
  | .ref n :: rest =>
    (match capSpan caps n with
      | some (s, e) => pySlice input s e
      | none => []) ++ applyRepl rest caps input

/-- Python `re.sub`: scan left to right, replace non-overlapping matches,
advance past each match (or one character after an empty match). -/
def reSubFrom (r : RE) (tmpl : List ReplItem) (input : List Char) :
    Nat → Nat → List Char
  | _, 0 => []
  | i, rem + 1 =>
    match matchAt r input i with
    | some (j, caps) =>
      if i < j then
        applyRepl tmpl caps input ++ reSubFrom r tmpl input j rem
      else
        applyRepl tmpl caps input ++
          (match input[i]? with
            | some c => c :: reSubFrom r tmpl input (i + 1) rem
            | none => [])
    | none =>
      match input[i]? with
      | some c => c :: reSubFrom r tmpl input (i + 1) rem
      | none => []

def reSub (r : RE) (tmpl : List ReplItem) (input : List Char) : List Char :=
  reSubFrom r tmpl input 0 (input.length + 1)

/-! ### Regex construction helpers -/

/-- Case-sensitive literal. -/
def rLit (s : List Char) : RE :=
  s.foldr (fun c acc => RE.seq (RE.cls (fun x => x = c)) acc) RE.eps

/-- Case-insensitive literal (`re.IGNORECASE`). -/
def rLitCI (s : List Char) : RE :=
  s.foldr (fun c acc => RE.seq (RE.cls (fun x => x.toLower = c.toLower)) acc) RE.eps

def rSeqL (l : List RE) : RE := l.foldr RE.seq RE.eps

def rAltL (l : List RE) : RE :=
  match l with
  | [] => RE.eps
  | [r] => r
  | r :: rest => RE.alt r (rAltL rest)

/-- `x+` (greedy). -/
def rPlus (r : RE) : RE := RE.seq r (RE.star r)

/-- `x?` (greedy). -/
def rOpt (r : RE) : RE := RE.alt r RE.eps

/-- `x{n}`. -/
def rRep (n : Nat) (r : RE) : RE := rSeqL (List.replicate n r)

/-- `\s`. -/
def rSpace : RE := RE.cls pyIsSpace

/-- `\d`. -/
def rDigit : RE := RE.cls Char.isDigit

/-- `\w`. -/
def rWord : RE := RE.cls isWordChar

/-- `.` (any character; none of the embedded patterns use DOTALL against
newline-bearing inputs in a way the claims depend on, and Python `.` excludes
newline). -/
def rAny : RE := RE.cls (fun c => c ≠ '\n')

example : reTest (rLitCI "abc".toList) "xxABCd".toList = true := by decide
example : reTest (rLit "abc".toList) "xxABCd".toList = false := by decide
example : reTest (rSeqL [rPlus rDigit, rLit ".".toList]) "a17.b".toList = true := by
  decide
example : (reSearch (rPlus rDigit) "ab123c".toList).map (fun x => (x.1, x.2.1)) =
    some (2, 5) := by decide
example : reSub (rPlus rDigit) [ReplItem.lit "[N]".toList] "a12b3".toList =
    "a[N]b[N]".toList := by decide

/-! ## Category Rule Engine (src/reporters/category_rules.py) -/

/-- `FailureClassification` (src/agent/analyzer.py lines 16-26). -/
structure FailureClassification where
  test_name : List Char
  classification : List Char
  confidence : List Char
  root_cause : Option (List Char)
  recommended_action : Option (List Char)
  root_cause_category : List Char

/-- The rule engine consults the cache only through
`TestDataCache.get_combined_log(test_name)` (returning `""` on a miss), so the
cache is embedded as that lookup function. -/
def CacheM : Type := List Char → List Char

/-- `['\"]`. -/
def rQuote : RE := RE.cls (fun c => c = '\'' || c = '"')

/-- `[^'\"]`. -/
def rNotQuote : RE := RE.cls (fun c => !(c = '\'' || c = '"'))

/-- `\s+`. -/
def rWS : RE := rPlus rSpace

/-- `([^'\"]+Page[^'\"]*)` (case-insensitive). -/
def rPageName : RE :=
  RE.grp 1 (rSeqL [rPlus rNotQuote, rLitCI "Page".toList, RE.star rNotQuote])

/-- `['\"]([^'\"]+Page[^'\"]*)['\"]\s+NOT\s+loaded\s+even\s+after\s*[:-]\s*\d+\.?\d*\s+seconds`. -/
def pPageNotLoadedSeconds : RE :=
  rSeqL [rQuote, rPageName, rQuote, rWS, rLitCI "NOT".toList, rWS,
    rLitCI "loaded".toList, rWS, rLitCI "even".toList, rWS,
    rLitCI "after".toList, RE.star rSpace, RE.cls (fun c => c = ':' || c = '-'),
    RE.star rSpace, rPlus rDigit, rOpt (RE.cls (fun c => c = '.')),
    RE.star rDigit, rWS, rLitCI "seconds".toList]

/-- `['\"]([^'\"]+Page[^'\"]*)['\"]\s+not\s+loaded\s+even\s+after` (applied to
pre-lowercased text). -/
def pPageNotLoadedLower : RE :=
  rSeqL [rQuote, RE.grp 1 (rSeqL [rPlus rNotQuote, rLit "Page".toList,
      RE.star rNotQuote]),
    rQuote, rWS, rLit "not".toList, rWS, rLit "loaded".toList, rWS,
    rLit "even".toList, rWS, rLit "after".toList]

/-- `['\"]([^'\"]+Page[^'\"]*)['\"]\s+(?:NOT|not)\s+loaded\s+even\s+after`. -/
def pPageNotLoadedFlex : RE :=
  rSeqL [rQuote, rPageName, rQuote, rWS,
    RE.alt (rLitCI "NOT".toList) (rLitCI "not".toList), rWS,
    rLitCI "loaded".toList, rWS, rLitCI "even".toList, rWS,
    rLitCI "after".toList]

/-- `['\"]([^'\"]+Page[^'\"]*)['\"]\s+not\s+loaded` (applied to lowercased
text, IGNORECASE). -/
def pPageNotLoadedShort : RE :=
  rSeqL [rQuote, rPageName, rQuote, rWS, rLitCI "not".toList, rWS,
    rLitCI "loaded".toList]

/-- `Element\s+['\"]([^'\"]+)['\"]\s+is\s+(?:NOT|not)\s+visible\s+even\s+after\s+waiting\s+for\s+\d+\s+seconds`. -/
def pElementNotVisible : RE :=
  rSeqL [rLitCI "Element".toList, rWS, rQuote, RE.grp 1 (rPlus rNotQuote),
    rQuote, rWS, rLitCI "is".toList, rWS,
    RE.alt (rLitCI "NOT".toList) (rLitCI "not".toList), rWS,
    rLitCI "visible".toList, rWS, rLitCI "even".toList, rWS,
    rLitCI "after".toList, rWS, rLitCI "waiting".toList, rWS,
    rLitCI "for".toList, rWS, rPlus rDigit, rWS, rLitCI "seconds".toList]

/-- The `visible and clickable` variant of the previous pattern. -/
def pElementNotVisibleClickable : RE :=
  rSeqL [rLitCI "Element".toList, rWS, rQuote, RE.grp 1 (rPlus rNotQuote),
    rQuote, rWS, rLitCI "is".toList, rWS,
    RE.alt (rLitCI "NOT".toList) (rLitCI "not".toList), rWS,
    rLitCI "visible".toList, rWS, rLitCI "and".toList, rWS,
    rLitCI "clickable".toList, rWS, rLitCI "even".toList, rWS,
    rLitCI "after".toList, rWS, rLitCI "waiting".toList, rWS,
    rLitCI "for".toList, rWS, rPlus rDigit, rWS, rLitCI "seconds".toList]

/-- `TimeoutException.*waiting\s+for\s+element\s+to\s+be\s+(?:clickable|visible)`. -/
def pTimeoutExceptionElement : RE :=
  rSeqL [rLitCI "TimeoutException".toList, RE.star rAny,
    rLitCI "waiting".toList, rWS, rLitCI "for".toList, rWS,
    rLitCI "element".toList, rWS, rLitCI "to".toList, rWS,
    rLitCI "be".toList, rWS,
    RE.alt (rLitCI "clickable".toList) (rLitCI "visible".toList)]

/-- `org\.openqa\.selenium\.TimeoutException.*waiting\s+for\s+element\s+to\s+be\s+(?:clickable|visible)`. -/
def pSeleniumTimeoutElement : RE :=
  rSeqL [rLitCI "org.openqa.selenium.TimeoutException".toList, RE.star rAny,
    rLitCI "waiting".toList, rWS, rLitCI "for".toList, rWS,
    rLitCI "element".toList, rWS, rLitCI "to".toList, rWS,
    rLitCI "be".toList, rWS,
    RE.alt (rLitCI "clickable".toList) (rLitCI "visible".toList)]

/-- `TimeoutException.*Expected\s+condition\s+failed.*waiting\s+for\s+element\s+to\s+be\s+clickable`. -/
def pTimeoutExpectedCondition : RE :=
  rSeqL [rLitCI "TimeoutException".toList, RE.star rAny,
    rLitCI "Expected".toList, rWS, rLitCI "condition".toList, rWS,
    rLitCI "failed".toList, RE.star rAny, rLitCI "waiting".toList, rWS,
    rLitCI "for".toList, rWS, rLitCI "element".toList, rWS,
    rLitCI "to".toList, rWS, rLitCI "be".toList, rWS,
    rLitCI "clickable".toList]

/-- A category rule: fixed priority, target category, match predicate
(src/reporters/category_rules.py lines 15-35). -/
structure CategoryRule where
  priority : Nat
  category : List Char
  rule_matches : FailureClassification → CacheM → Bool

/-- `ElementClickInterceptedRule` (lines 38-53). -/
def ElementClickInterceptedRule : CategoryRule :=
  { priority := 12
    category := "ELEMENT_NOT_FOUND".toList
    rule_matches := fun failure cache =>
      let root_cause := failure.root_cause.getD []
      let combined_text :=
        pyLower (root_cause ++ ' ' :: failure.recommended_action.getD [])
      let execution_log := pyLower (cache failure.test_name)
      containsSub "ElementClickInterceptedException".toList root_cause ||
      containsSub "elementclickinterceptedexception".toList combined_text ||
      containsSub "ElementClickInterceptedException".toList (cache failure.test_name) ||
      containsSub "elementclickinterceptedexception".toList execution_log }

/-- `PageLoadTimeoutRule` (lines 56-98). -/
def PageLoadTimeoutRule : CategoryRule :=
  { priority := 15
    category := "TIMEOUT".toList
    rule_matches := fun failure cache =>
      let root_cause := failure.root_cause.getD []
      let execution_log := cache failure.test_name
      let root_cause_lower := pyLower root_cause
      let execution_log_lower := pyLower execution_log
      let is_page_load_timeout_pattern :=
        reTest pPageNotLoadedSeconds root_cause ||
        reTest pPageNotLoadedSeconds execution_log ||
        reTest pPageNotLoadedLower root_cause_lower ||
        reTest pPageNotLoadedLower execution_log_lower ||
        reTest pPageNotLoadedFlex root_cause ||
        reTest pPageNotLoadedFlex execution_log
      let is_element_visibility_timeout :=
        reTest pElementNotVisible root_cause ||
        reTest pElementNotVisible execution_log ||
        reTest pElementNotVisibleClickable root_cause ||
        reTest pElementNotVisibleClickable execution_log
      let is_timeout_exception_for_element :=
        reTest pTimeoutExceptionElement root_cause ||
        reTest pTimeoutExceptionElement execution_log ||
        reTest pSeleniumTimeoutElement root_cause ||
        reTest pSeleniumTimeoutElement execution_log ||
        reTest pTimeoutExpectedCondition root_cause ||
        reTest pTimeoutExpectedCondition execution_log
      is_page_load_timeout_pattern || is_element_visibility_timeout ||
        is_timeout_exception_for_element }

/-- `ElementLocatorExceptionRule` (lines 101-144). -/
def ElementLocatorExceptionRule : CategoryRule :=
  { priority := 11
    category := "ELEMENT_NOT_FOUND".toList
    rule_matches := fun failure cache =>
      let root_cause := failure.root_cause.getD []
      let recommended_action := failure.recommended_action.getD []
      let combined_text := pyLower (root_cause ++ ' ' :: recommended_action)
      let execution_log := pyLower (cache failure.test_name)
      containsSub "staleelementreferenceexception".toList combined_text ||
      containsSub "staleelementreferenceexception".toList execution_log ||
      (containsSub "nullpointerexception".toList combined_text &&
        (containsSub "webelement".toList combined_text ||
         containsSub "getpageelement".toList combined_text ||
         containsSub "gettext()".toList combined_text ||
         containsSub ".gettext()".toList combined_text)) ||
      (containsSub "nullpointerexception".toList execution_log &&
        (containsSub "webelement".toList execution_log ||
         containsSub "getpageelement".toList execution_log ||
         containsSub "gettext()".toList execution_log ||
         containsSub ".gettext()".toList execution_log)) ||
      (containsSub "indexoutofboundsexception".toList combined_text &&
        (containsSub "length 0".toList combined_text ||
         containsSub "index 0".toList combined_text ||
         containsSub "out of bounds for length 0".toList combined_text)) ||
      (containsSub "indexoutofboundsexception".toList execution_log &&
        (containsSub "length 0".toList execution_log ||
         containsSub "index 0".toList execution_log ||
         containsSub "out of bounds for length 0".toList execution_log)) ||
      containsSub "stringindexoutofboundsexception".toList combined_text ||
      containsSub "stringindexoutofboundsexception".toList execution_log ||
      containsSub "StringIndexOutOfBoundsException".toList root_cause ||
      containsSub "StringIndexOutOfBoundsException".toList (cache failure.test_name) }

/-- `IllegalArgumentExceptionRule` (lines 147-162). -/
def IllegalArgumentExceptionRule : CategoryRule :=
  { priority := 10
    category := "ELEMENT_NOT_FOUND".toList
    rule_matches := fun failure cache =>
      let root_cause := failure.root_cause.getD []
      let combined_text :=
        pyLower (root_cause ++ ' ' :: failure.recommended_action.getD [])
      let execution_log := pyLower (cache failure.test_name)
      containsSub "illegalargumentexception".toList combined_text ||
      containsSub "illegalargumentexception".toList execution_log ||
      containsSub "IllegalArgumentException".toList root_cause ||
      containsSub "IllegalArgumentException".toList (cache failure.test_name) }

/-- `NonPageLoadTimeoutFilterRule` (lines 165-204). -/
def NonPageLoadTimeoutFilterRule : CategoryRule :=
  { priority := 6
    category := "OTHER".toList
    rule_matches := fun failure cache =>
      if failure.root_cause_category ≠ "TIMEOUT".toList then false
      else
        let root_cause := failure.root_cause.getD []
        let root_cause_lower := pyLower root_cause
        let execution_log := cache failure.test_name
        let is_valid_timeout :=
          reTest pPageNotLoadedFlex root_cause ||
          reTest pPageNotLoadedFlex execution_log ||
          containsSub "not loaded even after".toList root_cause_lower ||
          (containsSub "not loaded".toList root_cause_lower &&
            (containsSub "seconds".toList root_cause_lower ||
             containsSub "timeout".toList root_cause_lower)) ||
          reTest pPageNotLoadedShort root_cause_lower ||
          reTest pElementNotVisible root_cause ||
          reTest pElementNotVisible execution_log ||
          reTest pElementNotVisibleClickable root_cause ||
          reTest pElementNotVisibleClickable execution_log ||
          reTest pTimeoutExceptionElement root_cause ||
          reTest pTimeoutExceptionElement execution_log ||
          reTest pSeleniumTimeoutElement root_cause ||
          reTest pSeleniumTimeoutElement execution_log ||
          reTest pTimeoutExpectedCondition root_cause ||
          reTest pTimeoutExpectedCondition execution_log
        !is_valid_timeout }

/-- `expected\s+['\"]?[^'\"]+['\"]?\s+was\s*[:-]\s*['\"]?[^'\"]+['\"]?\s*\.?\s*but\s+actual\s+is`. -/
def pExpectedWasButActual : RE :=
  rSeqL [rLitCI "expected".toList, rWS, rOpt rQuote, rPlus rNotQuote,
    rOpt rQuote, rWS, rLitCI "was".toList, RE.star rSpace,
    RE.cls (fun c => c = ':' || c = '-'), RE.star rSpace, rOpt rQuote,
    rPlus rNotQuote, rOpt rQuote, RE.star rSpace,
    rOpt (RE.cls (fun c => c = '.')), RE.star rSpace, rLitCI "but".toList,
    rWS, rLitCI "actual".toList, rWS, rLitCI "is".toList]

/-- `expected\s+[^.]*but\s+actual`. -/
def pExpectedButActual : RE :=
  rSeqL [rLitCI "expected".toList, rWS,
    RE.star (RE.cls (fun c => !(c = '.'))), rLitCI "but".toList, rWS,
    rLitCI "actual".toList]

/-- `classes\s+of\s+actual\s+and\s+expected\s+key`. -/
def pClassesOfActual : RE :=
  rSeqL [rLitCI "classes".toList, rWS, rLitCI "of".toList, rWS,
    rLitCI "actual".toList, rWS, rLitCI "and".toList, rWS,
    rLitCI "expected".toList, rWS, rLitCI "key".toList]

/-- `missing\s+(?:key|field)\s*:`. -/
def pMissingKeyColon : RE :=
  rSeqL [rLitCI "missing".toList, rWS,
    RE.alt (rLitCI "key".toList) (rLitCI "field".toList), RE.star rSpace,
    rLit ":".toList]

/-- `actual\s+json\s+doesn'?t\s+contain\s+all\s+expected\s+keys`. -/
def pActualJsonMissing : RE :=
  rSeqL [rLitCI "actual".toList, rWS, rLitCI "json".toList, rWS,
    rLitCI "doesn".toList, rOpt (RE.cls (fun c => c = '\'')),
    rLitCI "t".toList, rWS, rLitCI "contain".toList, rWS,
    rLitCI "all".toList, rWS, rLitCI "expected".toList, rWS,
    rLitCI "keys".toList]

/-- `key\s*/\s*value\s+is\s+null`. -/
def pKeyValueNull : RE :=
  rSeqL [rLitCI "key".toList, RE.star rSpace, rLit "/".toList,
    RE.star rSpace, rLitCI "value".toList, rWS, rLitCI "is".toList, rWS,
    rLitCI "null".toList]

/-- `the\s+following\s+asserts\s+failed`. -/
def pFollowingAsserts : RE :=
  rSeqL [rLitCI "the".toList, rWS, rLitCI "following".toList, rWS,
    rLitCI "asserts".toList, rWS, rLitCI "failed".toList]

/-- `\bexpected\b`. -/
def pWordExpected : RE := rSeqL [RE.wb, rLitCI "expected".toList, RE.wb]

/-- `\bactual\b`. -/
def pWordActual : RE := rSeqL [RE.wb, rLitCI "actual".toList, RE.wb]

/-- `AssertionFailureFilterRule` (lines 207-261). -/
def AssertionFailureFilterRule : CategoryRule :=
  { priority := 5
    category := "OTHER".toList
    rule_matches := fun failure cache =>
      if failure.root_cause_category ≠ "ASSERTION_FAILURE".toList then false
      else
        let root_cause := failure.root_cause.getD []
        let recommended_action := failure.recommended_action.getD []
        let execution_log := cache failure.test_name
        let assertion_text :=
          pyLower (root_cause ++ ' ' :: recommended_action ++ ' ' :: execution_log)
        let is_clearly_not_assertion :=
          containsSub "nosuchelementexception".toList assertion_text ||
          containsSub "elementclickinterceptedexception".toList assertion_text ||
          containsSub "staleelementreferenceexception".toList assertion_text ||
          containsSub "timeoutexception".toList assertion_text ||
          containsSub "webdriverexception".toList assertion_text ||
          reTest pPageNotLoadedFlex root_cause ||
          reTest pPageNotLoadedFlex execution_log ||
          containsSub "not loaded even after".toList assertion_text ||
          containsSub "not loaded even after".toList (pyLower execution_log)
        if is_clearly_not_assertion then true
        else
          let is_valid_assertion :=
            reTest pExpectedWasButActual assertion_text ||
            reTest pExpectedButActual assertion_text ||
            reTest pClassesOfActual assertion_text ||
            reTest pMissingKeyColon assertion_text ||
            reTest pActualJsonMissing assertion_text ||
            reTest pKeyValueNull assertion_text ||
            reTest pFollowingAsserts assertion_text ||
            (reTest pWordExpected assertion_text &&
              reTest pWordActual assertion_text)
          !is_valid_assertion }

/-- The engine's rule list in constructor order (lines 269-276). -/
def engineRules : List CategoryRule :=
  [ElementClickInterceptedRule, PageLoadTimeoutRule, ElementLocatorExceptionRule,
   IllegalArgumentExceptionRule, NonPageLoadTimeoutFilterRule,
   AssertionFailureFilterRule]

/-- Stable insertion for the descending sort by rule priority (line 278);
an element with equal key goes after the existing ones, like Python's stable
`list.sort(reverse=True)` (all rule priorities are distinct anyway). -/
def insertByPriorityDesc (r : CategoryRule) :
    List CategoryRule → List CategoryRule
  | [] => [r]
  | x :: xs =>
    if x.priority < r.priority then r :: x :: xs
    else x :: insertByPriorityDesc r xs

def sortRulesDesc (l : List CategoryRule) : List CategoryRule :=
  l.foldr insertByPriorityDesc []

/-- The fixed category-priority table (lines 300-306), `dict.get(_, 0)`. -/
def category_priority (c : List Char) : Nat :=
  if c = "TIMEOUT".toList then 15
  else if c = "ELEMENT_NOT_FOUND".toList then 12
  else if c = "ASSERTION_FAILURE".toList then 8
  else if c = "ENVIRONMENT_ISSUE".toList then 6
  else if c = "OTHER".toList then 1
  else 0

/-- Stable insertion for the descending sort of the matching rules by
(category priority, rule priority) (lines 319-322). -/
def insertByCatKeyDesc (r : CategoryRule) :
    List CategoryRule → List CategoryRule
  | [] => [r]
  | x :: xs =>
    if category_priority x.category < category_priority r.category ∨
        (category_priority x.category = category_priority r.category ∧
          x.priority < r.priority) then
      r :: x :: xs
    else x :: insertByCatKeyDesc r xs

def sortMatchingDesc (l : List CategoryRule) : List CategoryRule :=
  l.foldr insertByCatKeyDesc []

/-- The matching rules, collected in sorted-rule order (lines 310-313). -/
def matchingRules (failure : FailureClassification) (cache : CacheM) :
    List CategoryRule :=
  (sortRulesDesc engineRules).filter (fun r => r.rule_matches failure cache)

/-- `CategoryRuleEngine.classify` (lines 280-326). -/
def classify (failure : FailureClassification) (cache : CacheM) : List Char :=
  let category0 := failure.root_cause_category
  let category :=
    if category0 = "NETWORK_ISSUE".toList ∨ category0 = "ENVIRONMENT_FAILURE".toList
    then "ENVIRONMENT_ISSUE".toList else category0
  match sortMatchingDesc (matchingRules failure cache) with
  | [] => category
  | best :: _ => best.category

/-! ### Properties of the rule engine -/

/-- The constructor-order list sorted by descending rule priority. -/
theorem sortRulesDesc_engineRules :
    sortRulesDesc engineRules =
      [PageLoadTimeoutRule, ElementClickInterceptedRule,
       ElementLocatorExceptionRule, IllegalArgumentExceptionRule,
       NonPageLoadTimeoutFilterRule, AssertionFailureFilterRule] := rfl

/-- `b` is at least `a` in the (category priority, rule priority) order used
to pick the best matching rule. -/
def keyGe (b a : CategoryRule) : Prop :=
  category_priority a.category < category_priority b.category ∨
    (category_priority a.category = category_priority b.category ∧
      a.priority ≤ b.priority)

theorem keyGe_refl (a : CategoryRule) : keyGe a a := Or.inr ⟨rfl, le_refl _⟩

theorem keyGe_trans {a b c : CategoryRule} (h1 : keyGe a b) (h2 : keyGe b c) :
    keyGe a c := by
  rcases h1 with h1 | ⟨h1, h1'⟩ <;> rcases h2 with h2 | ⟨h2, h2'⟩
  · exact Or.inl (lt_trans h2 h1)
  · exact Or.inl (by omega)
  · exact Or.inl (by omega)
  · exact Or.inr ⟨by omega, le_trans h2' h1'⟩

theorem insertByCatKeyDesc_mem (r x : CategoryRule) (l : List CategoryRule) :
    x ∈ insertByCatKeyDesc r l ↔ x = r ∨ x ∈ l := by
  induction l with
  | nil => simp [insertByCatKeyDesc]
  | cons a t ih =>
    simp only [insertByCatKeyDesc]
    split
    · simp [List.mem_cons]
    · simp only [List.mem_cons, ih]
      tauto

theorem sortMatchingDesc_mem (x : CategoryRule) (l : List CategoryRule) :
    x ∈ sortMatchingDesc l ↔ x ∈ l := by
  induction l with
  | nil => simp [sortMatchingDesc]
  | cons a t ih =>
    show x ∈ insertByCatKeyDesc a (sortMatchingDesc t) ↔ _
    rw [insertByCatKeyDesc_mem]
    simp [List.mem_cons, ih]

theorem insertByCatKeyDesc_length (r : CategoryRule) (l : List CategoryRule) :
    (insertByCatKeyDesc r l).length = l.length + 1 := by
  induction l with
  | nil => rfl
  | cons a t ih =>
    simp only [insertByCatKeyDesc]
    split
    · simp
    · simp [ih]

theorem sortMatchingDesc_length (l : List CategoryRule) :
    (sortMatchingDesc l).length = l.length := by
  induction l with
  | nil => rfl
  | cons a t ih =>
    show (insertByCatKeyDesc a (sortMatchingDesc t)).length = _
    rw [insertByCatKeyDesc_length, ih]
    rfl

/-- The head of the sorted matching-rule list dominates every list element in
the (category priority, rule priority) order. -/
theorem sortMatchingDesc_head_max (l : List CategoryRule) (x : CategoryRule)
    (hx : x ∈ l) (hd : CategoryRule) (tl : List CategoryRule)
    (hs : sortMatchingDesc l = hd :: tl) : keyGe hd x := by
  induction l generalizing hd tl with
  | nil => cases hx
  | cons a t ih =>
    have hs' : insertByCatKeyDesc a (sortMatchingDesc t) = hd :: tl := hs
    cases hst : sortMatchingDesc t with
    | nil =>
      rw [hst] at hs'
      have hte : t = [] := by
        have := sortMatchingDesc_length t
        rw [hst] at this
        exact List.length_eq_zero.mp this.symm
      rcases List.mem_cons.mp hx with rfl | hxt
      · simp only [insertByCatKeyDesc] at hs'
        injection hs' with h1 _
        rw [← h1]
        exact keyGe_refl x
      · rw [hte] at hxt
        cases hxt
    | cons h' t' =>
      rw [hst] at hs'
      simp only [insertByCatKeyDesc] at hs'
      split at hs'
      · rename_i hcond
        injection hs' with h1 _
        subst h1
        rcases List.mem_cons.mp hx with rfl | hxt
        · exact keyGe_refl x
        · have hah : keyGe a h' := by
            rcases hcond with h | ⟨h, h2⟩
            · exact Or.inl h
            · exact Or.inr ⟨h, le_of_lt h2⟩
          exact keyGe_trans hah (ih hxt h' t' hst)
      · rename_i hcond
        injection hs' with h1 _
        subst h1
        rcases List.mem_cons.mp hx with rfl | hxt
        · push_neg at hcond
          rcases Nat.lt_or_ge (category_priority x.category)
              (category_priority h'.category) with h | h
          · exact Or.inl h
          · have h2 := hcond.1
            have h3 : category_priority x.category = category_priority h'.category := by omega
            exact Or.inr ⟨h3, by have := hcond.2 h3.symm; omega⟩
        · exact ih hxt h' t' hst

/-- Every rule in the engine targets TIMEOUT, ELEMENT_NOT_FOUND or OTHER. -/
theorem engineRules_category (r : CategoryRule)
    (hr : r ∈ sortRulesDesc engineRules) :
    r.category = "TIMEOUT".toList ∨ r.category = "ELEMENT_NOT_FOUND".toList ∨
      r.category = "OTHER".toList := by
  rw [sortRulesDesc_engineRules] at hr
  simp only [List.mem_cons, List.not_mem_nil, or_false] at hr
  rcases hr with rfl | rfl | rfl | rfl | rfl | rfl <;> decide

/-- A rule of the engine whose category priority is at least 15 targets
TIMEOUT. -/
theorem engineRules_cp15 (r : CategoryRule)
    (hr : r ∈ sortRulesDesc engineRules)
    (h : 15 ≤ category_priority r.category) :
    r.category = "TIMEOUT".toList := by
  rw [sortRulesDesc_engineRules] at hr
  simp only [List.mem_cons, List.not_mem_nil, or_false] at hr
  rcases hr with rfl | rfl | rfl | rfl | rfl | rfl <;> revert h <;> decide

set_option maxHeartbeats 1000000 in
/-- When at least one rule matches, `classify` returns the category of the
head of the sorted matching-rule list. -/
theorem classify_eq_head (f : FailureClassification) (c : CacheM)
    (hd : CategoryRule) (tl : List CategoryRule)
    (hs : sortMatchingDesc (matchingRules f c) = hd :: tl) :
    classify f c = hd.category := by
  simp only [classify]
  rw [hs]

set_option maxHeartbeats 1000000 in
/-- When no rule matches, `classify` returns the merged upstream pre-tag. -/
theorem classify_eq_merged (f : FailureClassification) (c : CacheM)
    (hs : sortMatchingDesc (matchingRules f c) = []) :
    classify f c =
      if f.root_cause_category = "NETWORK_ISSUE".toList ∨
          f.root_cause_category = "ENVIRONMENT_FAILURE".toList
      then "ENVIRONMENT_ISSUE".toList else f.root_cause_category := by
  simp only [classify]
  rw [hs]

/-- **C5.** Category priority resolution: if the TIMEOUT-targeting
`PageLoadTimeoutRule` matches a failure's evidence, `classify` assigns
TIMEOUT — in particular when an ELEMENT_NOT_FOUND-targeting rule also
matches; and in general, whenever at least one rule matches, the selected
category is that of a matching rule whose category priority (TIMEOUT >
ELEMENT_NOT_FOUND > ASSERTION_FAILURE > ENVIRONMENT_ISSUE > OTHER) is
maximal among all matching rules; rule priority only breaks ties within a
category. -/
theorem C5_category_priority (f : FailureClassification) (c : CacheM) :
    (PageLoadTimeoutRule.rule_matches f c = true →
      classify f c = "TIMEOUT".toList) ∧
    (matchingRules f c ≠ [] →
      ∃ r, r ∈ matchingRules f c ∧ classify f c = r.category ∧
        ∀ r' ∈ matchingRules f c,
          category_priority r'.category ≤ category_priority r.category) := by
  constructor
  · intro hm
    have hmem : PageLoadTimeoutRule ∈ matchingRules f c := by
      unfold matchingRules
      rw [List.mem_filter]
      refine ⟨?_, hm⟩
      rw [sortRulesDesc_engineRules]
      exact List.mem_cons_self _ _
    cases hs : sortMatchingDesc (matchingRules f c) with
    | nil =>
      exfalso
      have hlen := sortMatchingDesc_length (matchingRules f c)
      rw [hs] at hlen
      have h0 : matchingRules f c = [] := List.length_eq_zero.mp hlen.symm
      rw [h0] at hmem
      cases hmem
    | cons hd tl =>
      have hge : keyGe hd PageLoadTimeoutRule :=
        sortMatchingDesc_head_max _ _ hmem hd tl hs
      have hhd_mem : hd ∈ matchingRules f c := by
        rw [← sortMatchingDesc_mem hd (matchingRules f c), hs]
        exact List.mem_cons_self _ _
      have hhd_rules : hd ∈ sortRulesDesc engineRules :=
        (List.mem_filter.mp hhd_mem).1
      have hplt : category_priority PageLoadTimeoutRule.category = 15 := rfl
      have h15 : 15 ≤ category_priority hd.category := by
        rcases hge with h | ⟨h, _⟩ <;> omega
      rw [classify_eq_head f c hd tl hs]
      exact engineRules_cp15 hd hhd_rules h15
  · intro hne
    cases hs : sortMatchingDesc (matchingRules f c) with
    | nil =>
      exfalso
      have hlen := sortMatchingDesc_length (matchingRules f c)
      rw [hs] at hlen
      exact hne (List.length_eq_zero.mp hlen.symm)
    | cons hd tl =>
      have hhd_mem : hd ∈ matchingRules f c := by
        rw [← sortMatchingDesc_mem hd (matchingRules f c), hs]
        exact List.mem_cons_self _ _
      refine ⟨hd, hhd_mem, classify_eq_head f c hd tl hs, ?_⟩
      intro r' hr'
      have hge := sortMatchingDesc_head_max _ _ hr' hd tl hs
      rcases hge with h | ⟨h, _⟩ <;> omega

/-- The failure used to witness the TIMEOUT-over-ELEMENT_NOT_FOUND
resolution: its root cause matches both `PageLoadTimeoutRule` and
`ElementClickInterceptedRule`. -/
def wf5 : FailureClassification :=
  { test_name := "com.example.LoginTest.testLogin".toList
    classification := "CONSISTENT_FAILURE".toList
    confidence := "HIGH".toList
    root_cause :=
      some "'APage' not loaded even after ElementClickInterceptedException".toList
    recommended_action := none
    root_cause_category := "OTHER".toList }

def wc5 : CacheM := fun _ => []

theorem C5_witness :
    classify wf5 wc5 = "TIMEOUT".toList ∧
    (∃ r, r ∈ matchingRules wf5 wc5 ∧ classify wf5 wc5 = r.category ∧
      ∀ r' ∈ matchingRules wf5 wc5,
        category_priority r'.category ≤ category_priority r.category) :=
  ⟨(C5_category_priority wf5 wc5).1 (by decide),
   (C5_category_priority wf5 wc5).2
     (fun h => absurd (congrArg List.length h) (by decide))⟩

/-- The counterexample to C6: a failure whose upstream pre-tag is the
arbitrary string BANANA and which matches no rule is classified as BANANA,
a value outside the fixed category enumeration. -/
theorem C6_counterexample :
    classify
      { test_name := "t".toList, classification := [], confidence := [],
        root_cause := none, recommended_action := none,
        root_cause_category := "BANANA".toList } (fun _ => []) =
      "BANANA".toList ∧
    "BANANA".toList ∉
      ["ELEMENT_NOT_FOUND".toList, "TIMEOUT".toList,
       "ASSERTION_FAILURE".toList, "ENVIRONMENT_ISSUE".toList,
       "OTHER".toList] := by
  constructor
  · rfl
  · decide

/-- **C6 (amended).** `classify` always returns exactly one category; that
category lies in the fixed enumeration {ELEMENT_NOT_FOUND, TIMEOUT,
ASSERTION_FAILURE, ENVIRONMENT_ISSUE, OTHER} whenever some rule matches, and
when no rule matches the merged upstream pre-tag (NETWORK_ISSUE and
ENVIRONMENT_FAILURE merged into ENVIRONMENT_ISSUE, everything else verbatim)
is returned — in the enumeration when the pre-tag merges, but an arbitrary
pre-tag outside the enumeration passes through unchanged. -/
theorem C6_category_totality (f : FailureClassification) (c : CacheM) :
    (matchingRules f c ≠ [] →
      classify f c ∈
        ["ELEMENT_NOT_FOUND".toList, "TIMEOUT".toList,
         "ASSERTION_FAILURE".toList, "ENVIRONMENT_ISSUE".toList,
         "OTHER".toList]) ∧
    (matchingRules f c = [] →
      classify f c =
        if f.root_cause_category = "NETWORK_ISSUE".toList ∨
            f.root_cause_category = "ENVIRONMENT_FAILURE".toList
        then "ENVIRONMENT_ISSUE".toList else f.root_cause_category) ∧
    (matchingRules f c = [] →
      (f.root_cause_category = "NETWORK_ISSUE".toList ∨
        f.root_cause_category = "ENVIRONMENT_FAILURE".toList) →
      classify f c ∈
        ["ELEMENT_NOT_FOUND".toList, "TIMEOUT".toList,
         "ASSERTION_FAILURE".toList, "ENVIRONMENT_ISSUE".toList,
         "OTHER".toList]) := by
  have hmerged : matchingRules f c = [] →
      classify f c =
        if f.root_cause_category = "NETWORK_ISSUE".toList ∨
            f.root_cause_category = "ENVIRONMENT_FAILURE".toList
        then "ENVIRONMENT_ISSUE".toList else f.root_cause_category := by
    intro hmr
    have hs : sortMatchingDesc (matchingRules f c) = [] := by rw [hmr]; rfl
    exact classify_eq_merged f c hs
  refine ⟨?_, hmerged, ?_⟩
  · intro hne
    cases hs : sortMatchingDesc (matchingRules f c) with
    | nil =>
      exfalso
      have hlen := sortMatchingDesc_length (matchingRules f c)
      rw [hs] at hlen
      exact hne (List.length_eq_zero.mp hlen.symm)
    | cons hd tl =>
      rw [classify_eq_head f c hd tl hs]
      have hhd_mem : hd ∈ matchingRules f c := by
        rw [← sortMatchingDesc_mem hd (matchingRules f c), hs]
        exact List.mem_cons_self _ _
      have hhd_rules : hd ∈ sortRulesDesc engineRules :=
        (List.mem_filter.mp hhd_mem).1
      rcases engineRules_category hd hhd_rules with h | h | h <;> rw [h] <;> decide
  · intro hmr hm
    rw [hmerged hmr, if_pos hm]
    decide

/-- A failure matched by `IllegalArgumentExceptionRule` (some rule matches). -/
def wf6a : FailureClassification :=
  { test_name := "t".toList, classification := [], confidence := [],
    root_cause := some "IllegalArgumentException".toList,
    recommended_action := none, root_cause_category := "OTHER".toList }

/-- A failure matched by no rule, with a pre-tag that merges. -/
def wf6b : FailureClassification :=
  { test_name := "t".toList, classification := [], confidence := [],
    root_cause := none, recommended_action := none,
    root_cause_category := "NETWORK_ISSUE".toList }

def wc6 : CacheM := fun _ => []

theorem C6_witness :
    (classify wf6a wc6 ∈
      ["ELEMENT_NOT_FOUND".toList, "TIMEOUT".toList,
       "ASSERTION_FAILURE".toList, "ENVIRONMENT_ISSUE".toList,
       "OTHER".toList]) ∧
    (classify wf6b wc6 =
      if wf6b.root_cause_category = "NETWORK_ISSUE".toList ∨
          wf6b.root_cause_category = "ENVIRONMENT_FAILURE".toList
      then "ENVIRONMENT_ISSUE".toList else wf6b.root_cause_category) ∧
    (classify wf6b wc6 ∈
      ["ELEMENT_NOT_FOUND".toList, "TIMEOUT".toList,
       "ASSERTION_FAILURE".toList, "ENVIRONMENT_ISSUE".toList,
       "OTHER".toList]) :=
  ⟨(C6_category_totality wf6a wc6).1
     (fun h => absurd (congrArg List.length h) (by decide)),
   (C6_category_totality wf6b wc6).2.1
     (List.length_eq_zero.mp (by decide)),
   (C6_category_totality wf6b wc6).2.2
     (List.length_eq_zero.mp (by decide)) (Or.inl rfl)⟩

/-! ## Log isolation (src/parsers/html_parser.py, `_extract_execution_log`)

The marker-based isolation of one test case's span out of the concatenated
log blob (lines 377-481); the upstream HTML walk only assembles `full_log`. -/

/-- `(start, end)` of the leftmost match, Python `m.start()`/`m.end()`. -/
def reFind (r : RE) (input : List Char) : Option (Nat × Nat) :=
  (reSearch r input).map (fun x => (x.1, x.2.1))

/-- First pattern (in list order) with a match anywhere wins, like the
`for pattern in ...: if match: break` loops. -/
def findFirstRE (pats : List RE) (blob : List Char) : Option (Nat × Nat) :=
  match pats with
  | [] => none
  | p :: ps =>
    match reFind p blob with
    | some se => some se
    | none => findFirstRE ps blob

def start_marker_patterns : List RE :=
  [rLitCI "Method arguments:".toList,
   rLitCI "Execution started for testcase".toList,
   rLitCI "Execution started for test".toList,
   rLitCI "Test Case Details".toList]

/-- `org\.openqa\.selenium\.[\w]+Exception:` (case-sensitive). -/
def pSeleniumExceptionCS : RE :=
  rSeqL [rLit "org.openqa.selenium.".toList, rPlus rWord,
    rLit "Exception:".toList]

/-- `java\.lang\.[\w]+Exception:`. -/
def pJavaLangException : RE :=
  rSeqL [rLit "java.lang.".toList, rPlus rWord, rLit "Exception:".toList]

/-- `java\.lang\.[\w]+Error:`. -/
def pJavaLangError : RE :=
  rSeqL [rLit "java.lang.".toList, rPlus rWord, rLit "Error:".toList]

/-- `at [\w\.]+\([\w\.]+\.java:\d+\)` (stack-trace line). -/
def pStackTraceLine : RE :=
  rSeqL [rLit "at ".toList, rPlus (RE.cls (fun c => isWordChar c || c = '.')),
    rLit "(".toList, rPlus (RE.cls (fun c => isWordChar c || c = '.')),
    rLit ".java:".toList, rPlus rDigit, rLit ")".toList]

def exception_patterns : List RE :=
  [pSeleniumExceptionCS, pJavaLangException, pJavaLangError,
   rLit "AssertionError:".toList, pStackTraceLine]

/-- `Method arguments:|Execution started for testcase` (IGNORECASE). -/
def pNextTest : RE :=
  RE.alt (rLitCI "Method arguments:".toList)
    (rLitCI "Execution started for testcase".toList)

def failure_markers : List RE :=
  [rLitCI "Failure occurred in test".toList,
   rLitCI "Total time taken by Test".toList]

/-- `org\.openqa\.selenium\.[\w]+Exception:` searched with IGNORECASE. -/
def pSeleniumExceptionCI : RE :=
  rSeqL [rLitCI "org.openqa.selenium.".toList, rPlus rWord,
    rLitCI "Exception:".toList]

def end_marker_patterns : List RE :=
  [rLitCI "Total time taken by Test".toList,
   rLitCI "Failure occurred in test".toList,
   pSeleniumExceptionCI]

/-- The isolation logic of `_extract_execution_log` on the assembled
`full_log` (html_parser.py lines 377-481). -/
def extract_execution_log_isolate (full_log : List Char) : List Char :=
  let n := full_log.length
  let start_idx := ((findFirstRE start_marker_patterns full_log).map Prod.fst).getD 0
  let rest := pySlice full_log start_idx n
  let end_idx :=
    match reFind (rLitCI "EXECUTION OF TESTCASE ENDS HERE".toList) rest with
    | some (_, eend) =>
      let execution_end_pos := start_idx + eend
      let remaining_after_end := pySlice full_log execution_end_pos n
      match findFirstRE exception_patterns remaining_after_end with
      | some (_, xend) =>
        match reFind pNextTest
            (pySlice remaining_after_end xend remaining_after_end.length) with
        | some (ns, _) => execution_end_pos + xend + ns
        | none => min (execution_end_pos + xend + 2000) n
      | none =>
        match findFirstRE failure_markers remaining_after_end with
        | some (_, fend) => execution_end_pos + fend + 1000
        | none => min (execution_end_pos + 5000) n
    | none =>
      match findFirstRE end_marker_patterns rest with
      | some (_, mend) => start_idx + mend + 2000
      | none => n
  let isolated_log := pySlice full_log start_idx end_idx
  if start_idx = 0 ∧ end_idx = n then full_log else isolated_log

theorem reFind_eq_none {r : RE} {s : List Char} (h : reTest r s = false) :
    reFind r s = none := by
  unfold reTest at h
  unfold reFind
  cases hs : reSearch r s
  · rfl
  · rw [hs] at h
    simp at h

/-- **C9.** Log Isolator degraded mode: the isolation of a test's span from
the concatenated log blob is a total function (the embedding has no failing
path), and when none of the start boundary markers and none of the end
boundary markers occur anywhere in the blob, the returned span is the entire
blob. -/
theorem C9_degraded_mode (blob : List Char)
    (h1 : reTest (rLitCI "Method arguments:".toList) blob = false)
    (h2 : reTest (rLitCI "Execution started for testcase".toList) blob = false)
    (h3 : reTest (rLitCI "Execution started for test".toList) blob = false)
    (h4 : reTest (rLitCI "Test Case Details".toList) blob = false)
    (h5 : reTest (rLitCI "EXECUTION OF TESTCASE ENDS HERE".toList) blob = false)
    (h6 : reTest (rLitCI "Total time taken by Test".toList) blob = false)
    (h7 : reTest (rLitCI "Failure occurred in test".toList) blob = false)
    (h8 : reTest pSeleniumExceptionCI blob = false) :
    extract_execution_log_isolate blob = blob := by
  have e1 := reFind_eq_none h1
  have e2 := reFind_eq_none h2
  have e3 := reFind_eq_none h3
  have e4 := reFind_eq_none h4
  have e5 := reFind_eq_none h5
  have e6 := reFind_eq_none h6
  have e7 := reFind_eq_none h7
  have e8 := reFind_eq_none h8
  have hfirst : findFirstRE start_marker_patterns blob = none := by
    simp only [start_marker_patterns, findFirstRE, e1, e2, e3, e4]
  have hrest : pySlice blob 0 blob.length = blob := by
    simp [pySlice]
  have hend : findFirstRE end_marker_patterns blob = none := by
    simp only [end_marker_patterns, findFirstRE, e6, e7, e8]
  simp only [extract_execution_log_isolate, hfirst, Option.map_none',
    Option.getD_none, hrest, e5, hend]
  simp

theorem C9_witness :
    extract_execution_log_isolate "no markers here".toList =
      "no markers here".toList :=
  C9_degraded_mode _ (by decide) (by decide) (by decide) (by decide)
    (by decide) (by decide) (by decide) (by decide)

/-! ## Root-cause normalization (src/utils.py, `normalize_root_cause`) -/

/-- `[a-z]`. -/
def lcAZ (c : Char) : Bool := 'a' ≤ c && c ≤ 'z'

/-- `[A-Z]`. -/
def ucAZ (c : Char) : Bool := 'A' ≤ c && c ≤ 'Z'

/-- `[a-z]` under IGNORECASE. -/
def azCI (c : Char) : Bool := lcAZ c || ucAZ c

/-- `[a-z0-9_]` under IGNORECASE. -/
def wordishCI (c : Char) : Bool := azCI c || c.isDigit || c = '_'

/-- `[0-9a-f]` under IGNORECASE. -/
def hexCI (c : Char) : Bool := c.isDigit || ('a' ≤ c && c ≤ 'f') || ('A' ≤ c && c ≤ 'F')

/-- `\d{1,2}`. -/
def rD12 : RE := rSeqL [rDigit, rOpt rDigit]

/-- `\s+`. -/
def rWSP : RE := rPlus rSpace

/-- `(jan|feb|mar|apr|may|jun|jul|aug|sep|oct|nov|dec)` (IGNORECASE). -/
def rMonth : RE :=
  rAltL [rLitCI "jan".toList, rLitCI "feb".toList, rLitCI "mar".toList,
    rLitCI "apr".toList, rLitCI "may".toList, rLitCI "jun".toList,
    rLitCI "jul".toList, rLitCI "aug".toList, rLitCI "sep".toList,
    rLitCI "oct".toList, rLitCI "nov".toList, rLitCI "dec".toList]

/-- `https?://[^\s\)]+`. -/
def p_url : RE :=
  rSeqL [rLit "http".toList, rOpt (RE.cls (fun c => c = 's')),
    rLit "://".toList, rPlus (RE.cls (fun c => !(pyIsSpace c || c = ')')))]

/-- `\b\d{1,2}\s+(jan|...|dec)[a-z]*\s+\d{4}\b` (IGNORECASE). -/
def p_date1 : RE :=
  rSeqL [RE.wb, rD12, rWSP, RE.grp 1 rMonth, RE.star (RE.cls azCI), rWSP,
    rRep 4 rDigit, RE.wb]

/-- `\b(jan|...|dec)[a-z]*\s+\d{1,2},?\s+\d{4}\b` (IGNORECASE). -/
def p_date2 : RE :=
  rSeqL [RE.wb, RE.grp 1 rMonth, RE.star (RE.cls azCI), rWSP, rD12,
    rOpt (RE.cls (fun c => c = ',')), rWSP, rRep 4 rDigit, RE.wb]

/-- `\b\d{4}-\d{2}-\d{2}\b`. -/
def p_date3 : RE :=
  rSeqL [RE.wb, rRep 4 rDigit, rLit "-".toList, rRep 2 rDigit,
    rLit "-".toList, rRep 2 rDigit, RE.wb]

/-- `\b\d{1,2}/\d{1,2}/\d{4}\b`. -/
def p_date4 : RE :=
  rSeqL [RE.wb, rD12, rLit "/".toList, rD12, rLit "/".toList,
    rRep 4 rDigit, RE.wb]

/-- `\b\d{1,2}-\d{1,2}-\d{4}\b`. -/
def p_date5 : RE :=
  rSeqL [RE.wb, rD12, rLit "-".toList, rD12, rLit "-".toList,
    rRep 4 rDigit, RE.wb]

/-- `\b\d{1,2}:\d{2}(:\d{2})?\s*(am|pm)?\b` (IGNORECASE). -/
def p_time : RE :=
  rSeqL [RE.wb, rD12, rLit ":".toList, rRep 2 rDigit,
    rOpt (RE.grp 1 (rSeqL [rLit ":".toList, rRep 2 rDigit])),
    RE.star rSpace,
    rOpt (RE.grp 2 (RE.alt (rLitCI "am".toList) (rLitCI "pm".toList))),
    RE.wb]

/-- `\b\d+\.?\d*\s*(seconds?|minutes?|hours?|ms|milliseconds?)\b`
(IGNORECASE). -/
def p_duration : RE :=
  rSeqL [RE.wb, rPlus rDigit, rOpt (RE.cls (fun c => c = '.')),
    RE.star rDigit, RE.star rSpace,
    RE.grp 1 (rAltL
      [rSeqL [rLitCI "second".toList, rOpt (rLitCI "s".toList)],
       rSeqL [rLitCI "minute".toList, rOpt (rLitCI "s".toList)],
       rSeqL [rLitCI "hour".toList, rOpt (rLitCI "s".toList)],
       rLitCI "ms".toList,
       rSeqL [rLitCI "millisecond".toList, rOpt (rLitCI "s".toList)]]),
    RE.wb]

/-- `\b(?!.*page)[a-z][a-z0-9_]*[a-z0-9]*\.[a-z][a-z0-9_]*\b` (IGNORECASE). -/
def p_testcase : RE :=
  rSeqL [RE.wb, RE.nla (rSeqL [RE.star rAny, rLitCI "page".toList]),
    RE.cls azCI, RE.star (RE.cls wordishCI),
    RE.star (RE.cls (fun c => azCI c || c.isDigit)), rLit ".".toList,
    RE.cls azCI, RE.star (RE.cls wordishCI), RE.wb]

/-- `([a-z][a-z0-9_]*page[a-z0-9_]*)` (IGNORECASE). -/
def rPageGroup : RE :=
  RE.grp 1 (rSeqL [RE.cls azCI, RE.star (RE.cls wordishCI),
    rLitCI "page".toList, RE.star (RE.cls wordishCI)])

/-- `([a-z][a-z0-9_]*page[a-z0-9_]*):([^\']+)\'` (IGNORECASE). -/
def p_pagelem1 : RE :=
  rSeqL [rPageGroup, rLit ":".toList,
    RE.grp 2 (rPlus (RE.cls (fun c => !(c = '\'')))), rLit "'".toList]

/-- `\'([a-z][a-z0-9_]*page[a-z0-9_]*):([^\']+)\'` (IGNORECASE). -/
def p_pagelem2 : RE :=
  rSeqL [rLit "'".toList, rPageGroup, rLit ":".toList,
    RE.grp 2 (rPlus (RE.cls (fun c => !(c = '\'')))), rLit "'".toList]

/-- `\b([a-z][a-z0-9_]*page[a-z0-9_]*):([^\s\']+)` (IGNORECASE). -/
def p_pagelem3 : RE :=
  rSeqL [RE.wb, rPageGroup, rLit ":".toList,
    RE.grp 2 (rPlus (RE.cls (fun c => !(pyIsSpace c || c = '\''))))]

/-- `actual\s+json\s+doesn[\'"]?t\s+contain\s+all\s+expected\s+keys`
(IGNORECASE). -/
def p_actualjson : RE :=
  rSeqL [rLitCI "actual".toList, rWSP, rLitCI "json".toList, rWSP,
    rLitCI "doesn".toList, rOpt (RE.cls (fun c => c = '\'' || c = '"')),
    rLitCI "t".toList, rWSP, rLitCI "contain".toList, rWSP,
    rLitCI "all".toList, rWSP, rLitCI "expected".toList, rWSP,
    rLitCI "keys".toList]

/-- `missing\s+keys?` (IGNORECASE). -/
def p_missingkeys : RE :=
  rSeqL [rLitCI "missing".toList, rWSP, rLitCI "key".toList,
    rOpt (rLitCI "s".toList)]

/-- `missing\s+keys?:\s*\[[^\]]+\]` (IGNORECASE). -/
def p_missingkeyslist : RE :=
  rSeqL [rLitCI "missing".toList, rWSP, rLitCI "key".toList,
    rOpt (rLitCI "s".toList), rLit ":".toList, RE.star rSpace,
    rLit "[".toList, rPlus (RE.cls (fun c => !(c = ']'))), rLit "]".toList]

/-- `expected\s+has:\s*[\'"]?\[[^\]]+\][\'"]?` (IGNORECASE). -/
def p_expectedhas1 : RE :=
  rSeqL [rLitCI "expected".toList, rWSP, rLitCI "has:".toList,
    RE.star rSpace, rOpt (RE.cls (fun c => c = '\'' || c = '"')),
    rLit "[".toList, rPlus (RE.cls (fun c => !(c = ']'))), rLit "]".toList,
    rOpt (RE.cls (fun c => c = '\'' || c = '"'))]

/-- `expected\s+has:\s*\[[^\]]+\]` (IGNORECASE). -/
def p_expectedhas2 : RE :=
  rSeqL [rLitCI "expected".toList, rWSP, rLitCI "has:".toList,
    RE.star rSpace, rLit "[".toList, rPlus (RE.cls (fun c => !(c = ']'))),
    rLit "]".toList]

/-- The dashed hex shape `[0-9a-f]{8}-...{4}-...{4}-...{4}-...{12}`
(IGNORECASE). -/
def rUuidBody : RE :=
  rSeqL [rRep 8 (RE.cls hexCI), rLit "-".toList, rRep 4 (RE.cls hexCI),
    rLit "-".toList, rRep 4 (RE.cls hexCI), rLit "-".toList,
    rRep 4 (RE.cls hexCI), rLit "-".toList, rRep 12 (RE.cls hexCI)]

/-- `/[0-9a-f]{8}-[0-9a-f]{4}-[0-9a-f]{4}-[0-9a-f]{4}-[0-9a-f]{12}`
(IGNORECASE). -/
def p_uuidpath : RE := rSeqL [rLit "/".toList, rUuidBody]

/-- `/\{?[a-zA-Z0-9_-]+\}?`. -/
def p_idpath : RE :=
  rSeqL [rLit "/".toList, rOpt (RE.cls (fun c => c = '\x7b')),
    rPlus (RE.cls (fun c => azCI c || c.isDigit || c = '_' || c = '-')),
    rOpt (RE.cls (fun c => c = '\x7d'))]

/-- `/\d+`. -/
def p_numpath : RE := rSeqL [rLit "/".toList, rPlus rDigit]

/-- `[^\s,\.]`. -/
def notSpaceCommaDot (c : Char) : Bool := !(pyIsSpace c || c = ',' || c = '.')

/-- `api\s+name:\s*` (IGNORECASE), the shared prefix of the API-name
patterns. -/
def rApiNamePrefix : RE :=
  rSeqL [rLitCI "api".toList, rWSP, rLitCI "name:".toList, RE.star rSpace]

/-- `api\s+name:\s*(get|post|put|delete|patch)\s+([^\s,\.]+)` (IGNORECASE). -/
def p_apiname1 : RE :=
  rSeqL [rApiNamePrefix,
    RE.grp 1 (rAltL [rLitCI "get".toList, rLitCI "post".toList,
      rLitCI "put".toList, rLitCI "delete".toList, rLitCI "patch".toList]),
    rWSP, RE.grp 2 (rPlus (RE.cls notSpaceCommaDot))]

/-- `api\s+name:\s*([/][^\s,\.]+)` (IGNORECASE). -/
def p_apiname2 : RE :=
  rSeqL [rApiNamePrefix,
    RE.grp 1 (rSeqL [RE.cls (fun c => c = '/'),
      rPlus (RE.cls notSpaceCommaDot)])]

/-- `api\s+name:\s*([a-z][a-z0-9_]*response)` (IGNORECASE). -/
def p_apiname3 : RE :=
  rSeqL [rApiNamePrefix,
    RE.grp 1 (rSeqL [RE.cls azCI, RE.star (RE.cls wordishCI),
      rLitCI "response".toList])]

/-- `api\s+name:\s*([^\s,\.]+)` (IGNORECASE). -/
def p_apiname4 : RE :=
  rSeqL [rApiNamePrefix, RE.grp 1 (rPlus (RE.cls notSpaceCommaDot))]

/-- `\b(40[0-9]|50[0-9]|30[0-9])\b`. -/
def p_status : RE :=
  rSeqL [RE.wb,
    RE.grp 1 (rAltL [rSeqL [rLit "40".toList, rDigit],
      rSeqL [rLit "50".toList, rDigit], rSeqL [rLit "30".toList, rDigit]]),
    RE.wb]

/-- `#[a-zA-Z0-9_-]+`. -/
def p_css : RE :=
  rSeqL [rLit "#".toList,
    rPlus (RE.cls (fun c => azCI c || c.isDigit || c = '_' || c = '-'))]

/-- `data-cy=[\'"][^\'"]+[\'"]`. -/
def p_datacy : RE :=
  rSeqL [rLit "data-cy=".toList, RE.cls (fun c => c = '\'' || c = '"'),
    rPlus (RE.cls (fun c => !(c = '\'' || c = '"'))),
    RE.cls (fun c => c = '\'' || c = '"')]

/-- `\b\d{6,}\b`. -/
def p_numid : RE :=
  rSeqL [RE.wb, rRep 6 rDigit, RE.star rDigit, RE.wb]

/-- `\b[a-z0-9._%+-]+@[a-z0-9.-]+\.[a-z]{2,}\b` (IGNORECASE). -/
def p_email : RE :=
  rSeqL [RE.wb,
    rPlus (RE.cls (fun c => azCI c || c.isDigit || c = '.' || c = '_' ||
      c = '%' || c = '+' || c = '-')),
    rLit "@".toList,
    rPlus (RE.cls (fun c => azCI c || c.isDigit || c = '.' || c = '-')),
    rLit ".".toList, rRep 2 (RE.cls azCI), RE.star (RE.cls azCI), RE.wb]

/-- Python `str.split()` with no separator: split on whitespace runs,
discarding empties. -/
def pySplitWS (s : List Char) : List (List Char) :=
  (s.foldr
    (fun c acc =>
      if pyIsSpace c then [] :: acc
      else
        match acc with
        | [] => [[c]]
        | w :: ws => (c :: w) :: ws)
    []).filter (fun w => !w.isEmpty)

/-- One literal-text replacement template. -/
def tLit (s : List Char) : List ReplItem := [ReplItem.lit s]

/-- The substitution pipeline of `normalize_root_cause` (utils.py lines
247-352), from the initial lowercasing through the missing-keys special
case, before the final 200-character truncation and strip. -/
def normalize_pipeline (root_cause : List Char) : List Char :=
  let normalized := pyLower root_cause
  let normalized := reSub p_url (tLit "[URL]".toList) normalized
  let normalized := reSub p_date1 (tLit "[DATE]".toList) normalized
  let normalized := reSub p_date2 (tLit "[DATE]".toList) normalized
  let normalized := reSub p_date3 (tLit "[DATE]".toList) normalized
  let normalized := reSub p_date4 (tLit "[DATE]".toList) normalized
  let normalized := reSub p_date5 (tLit "[DATE]".toList) normalized
  let normalized := reSub p_time (tLit "[TIME]".toList) normalized
  let normalized := reSub p_duration (tLit "[DURATION]".toList) normalized
  let normalized := reSub p_testcase (tLit "[TESTCASE]".toList) normalized
  let normalized := reSub p_pagelem1
    [ReplItem.ref 1, ReplItem.lit ":[ELEMENT]\\'".toList] normalized
  let normalized := reSub p_pagelem2
    [ReplItem.lit "\\'".toList, ReplItem.ref 1,
     ReplItem.lit ":[ELEMENT]\\'".toList] normalized
  let normalized := reSub p_pagelem3
    [ReplItem.ref 1, ReplItem.lit ":[ELEMENT]".toList] normalized
  let normalized := reSub p_actualjson (tLit "missing keys".toList) normalized
  let normalized := reSub p_missingkeys (tLit "missing keys".toList) normalized
  let normalized := reSub p_missingkeyslist
    (tLit "missing keys: [keys_list]".toList) normalized
  let normalized := reSub p_expectedhas1
    (tLit "missing keys: [keys_list]".toList) normalized
  let normalized := reSub p_expectedhas2
    (tLit "missing keys: [keys_list]".toList) normalized
  let normalized := reSub p_uuidpath (tLit "/\x7buuid\x7d".toList) normalized
  let normalized := reSub p_idpath (tLit "/\x7bid\x7d".toList) normalized
  let normalized := reSub p_numpath (tLit "/\x7bid\x7d".toList) normalized
  let normalized := reSub p_apiname1 (tLit "api name: [endpoint]".toList) normalized
  let normalized := reSub p_apiname2 (tLit "api name: [endpoint]".toList) normalized
  let normalized := reSub p_apiname3 (tLit "api name: [api_response]".toList) normalized
  let normalized := reSub p_apiname4 (tLit "api name: [api_name]".toList) normalized
  let normalized := reSub p_status (tLit "[status_code]".toList) normalized
  let normalized := reSub p_css (tLit "#[id]".toList) normalized
  let normalized := reSub p_datacy (tLit "data-cy=[attr]".toList) normalized
  let normalized := reSub rUuidBody (tLit "[UUID]".toList) normalized
  let normalized := reSub p_numid (tLit "[NUMERIC_ID]".toList) normalized
  let normalized := reSub p_email (tLit "[EMAIL]".toList) normalized
  let normalized := pyJoin ' ' (pySplitWS normalized)
  let has_missing_keys :=
    containsSub "missing keys".toList normalized ||
    containsSub "[keys_list]".toList normalized ||
    containsSub "expected has".toList (pyLower normalized) ||
    containsSub "actual json".toList (pyLower normalized)
  if has_missing_keys then
    if containsSub "[status_code]".toList normalized then
      "api name: [api_name], status code: [status_code], missing keys: [keys_list]".toList
    else
      "api name: [api_name], missing keys: [keys_list]".toList
  else normalized

/-- `normalize_root_cause` (utils.py lines 233-355). -/
def normalize_root_cause (root_cause : List Char) : List Char :=
  if root_cause.isEmpty then []
  else pyStrip ((normalize_pipeline root_cause).take 200)

theorem length_pyStrip_le (l : List Char) : (pyStrip l).length ≤ l.length := by
  unfold pyStrip pyRStrip pyLStrip
  rw [List.length_reverse]
  have h1 := length_dropWhile_le pyIsSpace (l.dropWhile pyIsSpace).reverse
  rw [List.length_reverse] at h1
  have h2 := length_dropWhile_le pyIsSpace l
  omega

/-- **C10.** Root-cause normalization truncates its output: for every input
the normalized root cause has at most 200 characters, and two non-empty
messages whose substitution-pipeline outputs agree on the first 200
characters normalize to the same string (they are grouped as one reason even
if the pipelines differ after position 200). -/
theorem C10_truncation :
    (∀ s : List Char, (normalize_root_cause s).length ≤ 200) ∧
    (∀ s1 s2 : List Char, s1 ≠ [] → s2 ≠ [] →
      (normalize_pipeline s1).take 200 = (normalize_pipeline s2).take 200 →
      normalize_root_cause s1 = normalize_root_cause s2) := by
  constructor
  · intro s
    unfold normalize_root_cause
    split
    · simp
    · have h1 := length_pyStrip_le ((normalize_pipeline s).take 200)
      have h2 : ((normalize_pipeline s).take 200).length ≤ 200 := by
        simp [List.length_take]
      omega
  · intro s1 s2 h1 h2 htake
    unfold normalize_root_cause
    rw [if_neg (by simp [h1]), if_neg (by simp [h2]), htake]

theorem C10_witness :
    "x".toList ≠ [] ∧
    normalize_root_cause "x".toList = normalize_root_cause "x".toList ∧
    (normalize_root_cause "x".toList).length ≤ 200 :=
  ⟨by decide,
   C10_truncation.2 "x".toList "x".toList (by decide) (by decide) rfl,
   C10_truncation.1 "x".toList⟩
